import Mathlib

/-!
Verification of the analysis & forecasting engine of the AI-EDA backend
(`backend/main.py`).

The Python source is shallowly embedded here:

* pandas tables become `Table`: an ordered list of named columns, each a list
  of nullable cells of one kind (numeric, text, boolean, temporal);
* floats become exact rationals `ℚ` (every IEEE double is a rational, and no
  claim under study depends on rounding of doubles);
* timestamps become `ℤ` (days since 1970-01-01, the pandas epoch, with the
  sub-day component irrelevant to every code path modelled here);
* external library routines that the engine merely calls (element-wise
  `pd.to_datetime` parsing, the seeded `DataFrame.sample`, the pairwise
  Pearson entry of `DataFrame.corr`, and `np.linalg.lstsq`) are parameters,
  collected in `ExtLib`; everything algorithmic in `main.py` itself is
  translated directly;
* fallible library calls are an `Except String` channel, so that the
  `try/except` of `simple_forecast` can be modelled faithfully.
-/

/- The Batteries rational primitives are `@[irreducible]`, which blocks the
elaborator-side evaluation `decide` relies on (the kernel ignores
reducibility attributes).  Restore semireducibility so concrete tables can
be evaluated inside proofs. -/
set_option allowUnsafeReducibility true in
attribute [semireducible] Rat.add Rat.mul Rat.sub Rat.inv Rat.ofScientific

set_option maxRecDepth 100000

namespace AiEda

/-! ## Generic helpers -/

/-- Is `pat` a prefix of `hay` (character lists)? -/
def isPreL : List Char → List Char → Bool
  | [], _ => true
  | _ :: _, [] => false
  | a :: as, b :: bs => a = b && isPreL as bs

/-- Substring containment on character lists: Python's `pat in hay`. -/
def containsL (pat : List Char) : List Char → Bool
  | [] => isPreL pat []
  | c :: rest => isPreL pat (c :: rest) || containsL pat rest

/-- Python's `pat in hay` for strings. -/
def strContains (hay pat : String) : Bool :=
  containsL pat.data hay.data

/-- ASCII lower-casing (Python's `.lower()` on the ASCII column names this
code handles). -/
def charLower (c : Char) : Char :=
  if 'A' ≤ c ∧ c ≤ 'Z' then Char.ofNat (c.toNat + 32) else c

def strLower (s : String) : String :=
  String.mk (s.data.map charLower)

/-- Python's `.strip()`. -/
def strTrim (s : String) : String :=
  String.mk (((s.data.dropWhile Char.isWhitespace).reverse.dropWhile
    Char.isWhitespace).reverse)

/-- First index of the maximum of a rational list (`np.argmax`: first
occurrence wins); `0` on the empty list. -/
def firstMaxIdxAux : List ℚ → ℕ → ℕ → ℚ → ℕ
  | [], _, bi, _ => bi
  | x :: xs, i, bi, bv => if bv < x then firstMaxIdxAux xs (i + 1) i x
                          else firstMaxIdxAux xs (i + 1) bi bv

def firstMaxIdxQ : List ℚ → ℕ
  | [] => 0
  | x :: xs => firstMaxIdxAux xs 1 0 x

/-- First element attaining the maximal key (strictly-greater replacement,
so the first occurrence of the maximum wins). -/
def pickMax (h : String × ℚ) (tl : List (String × ℚ)) : String × ℚ :=
  tl.foldl (fun best x => if best.2 < x.2 then x else best) h

/-- Stable insertion (descending by key): the new element goes after all
already-placed elements with an equal or larger key.  Matches the stability
of Python's `sorted(..., reverse=True)`. -/
def insDesc {α : Type} (key : α → ℚ) (x : α) : List α → List α
  | [] => [x]
  | y :: ys => if key y < key x then x :: y :: ys else y :: insDesc key x ys

/-- Stable sort, descending by key. -/
def sortDescBy {α : Type} (key : α → ℚ) (l : List α) : List α :=
  l.foldl (fun acc x => insDesc key x acc) []

/-- Stable insertion (ascending by integer key). -/
def insAscZ {α : Type} (key : α → ℤ) (x : α) : List α → List α
  | [] => [x]
  | y :: ys => if key x < key y then x :: y :: ys else y :: insAscZ key x ys

/-- Stable sort, ascending by integer key (pandas `sort_index`). -/
def sortAscByZ {α : Type} (key : α → ℤ) (l : List α) : List α :=
  l.foldl (fun acc x => insAscZ key x acc) []

/-- Ascending insertion sort of integers (the sorted category order of
`pd.get_dummies` columns). -/
def insZ (x : ℤ) : List ℤ → List ℤ
  | [] => [x]
  | y :: ys => if x < y then x :: y :: ys else y :: insZ x ys

def sortZ (l : List ℤ) : List ℤ :=
  l.foldl (fun acc x => insZ x acc) []

/-- Python-dict insertion: update the value in place when the key exists,
else append.  Iteration order of a `dict` is insertion order. -/
def dictInsert (k v : String) : List (String × String) → List (String × String)
  | [] => [(k, v)]
  | (k', v') :: rest =>
      if k' = k then (k, v) :: rest else (k', v') :: dictInsert k v rest

/-- `{c.lower(): c for c in cands}`. -/
def lowerDict (cands : List String) : List (String × String) :=
  cands.foldl (fun d c => dictInsert (strLower c) c d) []

/-- The nested loop `for p in prefs: for lc, orig in d.items(): if p in lc:
return orig` — keyword-major scan over a keyword list and a dict. -/
def firstHit (prefs : List String) (d : List (String × String)) : Option String :=
  prefs.findSome? (fun p => (d.find? (fun kv => strContains kv.1 p)).map (·.2))

/-- Mean of a rational list (`0` on the empty list; pandas would produce NaN
there, and every use below either rules the empty case out or is unaffected). -/
def qmean (xs : List ℚ) : ℚ := xs.sum / xs.length

/-! ## Calendar (proleptic Gregorian, days since 1970-01-01)

`pd.Timestamp` arithmetic on the civil calendar, needed for the weekly and
monthly resampling buckets of the forecaster.  Standard
days-from-civil / civil-from-days algorithm. -/

/-- `(year, month, day)` of a day number (0 = 1970-01-01). -/
def civilFromDays (z0 : ℤ) : ℤ × ℤ × ℤ :=
  let z := z0 + 719468
  let era := z.fdiv 146097
  let doe := z - era * 146097
  let yoe := (doe - doe.fdiv 1460 + doe.fdiv 36524 - doe.fdiv 146096).fdiv 365
  let y := yoe + era * 400
  let doy := doe - (365 * yoe + yoe.fdiv 4 - yoe.fdiv 100)
  let mp := (5 * doy + 2).fdiv 153
  let d := doy - (153 * mp + 2).fdiv 5 + 1
  let m := mp + (if mp < 10 then 3 else -9)
  (if m ≤ 2 then y + 1 else y, m, d)

/-- Day number of a civil date. -/
def daysFromCivil (y m d : ℤ) : ℤ :=
  let y' := if m ≤ 2 then y - 1 else y
  let era := y'.fdiv 400
  let yoe := y' - era * 400
  let mp := (m + 9).emod 12
  let doy := (153 * mp + 2).fdiv 5 + d - 1
  let doe := yoe * 365 + yoe.fdiv 4 - yoe.fdiv 100 + doy
  era * 146097 + doe - 719468

def isLeapYear (y : ℤ) : Bool :=
  (y.emod 4 = 0 && y.emod 100 ≠ 0) || y.emod 400 = 0

def daysInMonth (y m : ℤ) : ℤ :=
  if m = 2 then (if isLeapYear y then 29 else 28)
  else if m = 4 || m = 6 || m = 9 || m = 11 then 30
  else 31

/-- Pandas `dayofweek` (Monday = 0) of a day number; day 0 = 1970-01-01 was a
Thursday. -/
def dowOf (d : ℤ) : ℤ := (d + 3).emod 7

/-- Month bucket index of a day: `year*12 + (month-1)`. -/
def monthIdx (d : ℤ) : ℤ :=
  let c := civilFromDays d
  c.1 * 12 + (c.2.1 - 1)

/-- The month-end day number of a month bucket index (the label pandas gives
an `M`-resampled bucket). -/
def monthEndDay (idx : ℤ) : ℤ :=
  let y := idx.fdiv 12
  let m := idx.emod 12 + 1
  daysFromCivil y m (daysInMonth y m)

/-! ## The data model -/

/-- One column's values: nullable cells of a single kind.  `dt` holds
timestamps as day numbers. -/
inductive ColVals : Type
  | num (vs : List (Option ℚ))
  | text (vs : List (Option String))
  | bl (vs : List (Option Bool))
  | dt (vs : List (Option ℤ))
deriving DecidableEq, Repr

/-- A pandas DataFrame: ordered named columns plus the row count `len(df)`. -/
structure Table where
  nRows : ℕ
  cols : List (String × ColVals)
deriving DecidableEq, Repr

def colLen : ColVals → ℕ
  | .num vs => vs.length
  | .text vs => vs.length
  | .bl vs => vs.length
  | .dt vs => vs.length

/-- Count of null cells of a column. -/
def countNullCol : ColVals → ℕ
  | .num vs => vs.countP (·.isNone)
  | .text vs => vs.countP (·.isNone)
  | .bl vs => vs.countP (·.isNone)
  | .dt vs => vs.countP (·.isNone)

/-- `nunique(dropna=True)`. -/
def nuniqueCol : ColVals → ℕ
  | .num vs => (vs.filterMap id).dedup.length
  | .text vs => (vs.filterMap id).dedup.length
  | .bl vs => (vs.filterMap id).dedup.length
  | .dt vs => (vs.filterMap id).dedup.length

/-- Stringification of one column, `Series.astype(str)`: a missing value is
the float NaN in a parsed table and stringifies to `"nan"`.  The rendering of
numeric and timestamp cells is modelled with `toString`; every date-parsing
consumer of these strings is an `ExtLib` parameter anyway. -/
def cellStrList : ColVals → List String
  | .num vs => vs.map (fun c => match c with | none => "nan" | some q => toString q)
  | .text vs => vs.map (fun c => match c with | none => "nan" | some s => s)
  | .bl vs => vs.map (fun c => match c with
      | none => "nan" | some true => "True" | some false => "False")
  | .dt vs => vs.map (fun c => match c with | none => "NaT" | some d => toString d)

def isNumKind : ColVals → Bool
  | .num _ => true | _ => false

def isCatKind : ColVals → Bool
  | .text _ => true | .bl _ => true | _ => false

def isDtKind : ColVals → Bool
  | .dt _ => true | _ => false

/-- `df.select_dtypes(include=[np.number]).columns`. -/
def numColNames (t : Table) : List String :=
  (t.cols.filter (fun c => isNumKind c.2)).map (·.1)

/-- The numeric columns with their values, in original order. -/
def numColsOf (t : Table) : List (String × List (Option ℚ)) :=
  t.cols.filterMap (fun c => match c.2 with
    | .num vs => some (c.1, vs) | _ => none)

/-- `df.select_dtypes(include=["object", "category", "bool"]).columns`. -/
def catColNames (t : Table) : List String :=
  (t.cols.filter (fun c => isCatKind c.2)).map (·.1)

/-- Datetime columns, in original order. -/
def dtColNames (t : Table) : List String :=
  (t.cols.filter (fun c => isDtKind c.2)).map (·.1)

/-- `df[c]` (first match on duplicate names, as pandas column lookup). -/
def getCol (t : Table) (c : String) : Option ColVals :=
  (t.cols.find? (fun kv => kv.1 = c)).map (·.2)

/-- Numeric values of column `c` (empty when absent or non-numeric). -/
def numValsOf (t : Table) (c : String) : List (Option ℚ) :=
  match getCol t c with
  | some (.num vs) => vs
  | _ => []

/-- Timestamp values of column `c`. -/
def dtValsOf (t : Table) (c : String) : List (Option ℤ) :=
  match getCol t c with
  | some (.dt vs) => vs
  | _ => []

def dropNone {α : Type} (l : List (Option α)) : List α := l.filterMap id

/-! ## External library routines (collaborators, not repository code) -/

/-- The library functions `main.py` calls but does not define.  Results of
float routines are the rationals the library's doubles denote. -/
structure ExtLib where
  /-- Element-wise `pd.to_datetime(·, errors="coerce", dayfirst=·)` on an
  already stringified cell; `none` is NaT. -/
  toDT : Bool → String → Option ℤ
  /-- Element-wise `pd.to_datetime(dict(year=·, month=·, day=·),
  errors="coerce")` on numeric cells. -/
  mkYMD : Option ℚ → Option ℚ → Option ℚ → Option ℤ
  /-- One entry of `DataFrame.corr` (pairwise-complete Pearson), after
  `.fillna(0.0)`. -/
  corr : List (Option ℚ) → List (Option ℚ) → ℚ
  /-- `df.sample(n, random_state=seed)` — the seed determines the draw. -/
  sample : ℕ → Table → Table
  /-- `np.linalg.lstsq` (minimum-norm least squares); may fail
  (`LinAlgError`), hence the `Except` channel feeding the caller's
  `try/except`. -/
  lstsq : List (List ℚ) → List ℚ → Except String (List ℚ)

/-! ## `pick_target` (main.py lines 252-298) -/

def prefs_sum : List String :=
  ["sales", "revenue", "amount", "qty", "quantity", "units", "orders",
   "profit", "turnover", "count", "gmv", "visits", "views", "clicks",
   "volume", "sold"]

def prefs_mean : List String :=
  ["price", "cost", "rate", "avg", "average", "margin"]

/-- `is_idlike`: distinct-value share `u / rows >= 0.98` (and `rows > 0`). -/
def is_idlike (t : Table) (c : String) : Bool :=
  decide (0 < t.nRows ∧
    (98 : ℚ) / 100 ≤ (nuniqueCol ((getCol t c).getD (.num [])) : ℚ) / (t.nRows : ℚ))

/-- `df[c].notna().sum()`. -/
def nonNullCount (t : Table) (c : String) : ℕ :=
  colLen ((getCol t c).getD (.num [])) - countNullCol ((getCol t c).getD (.num []))

/-- The ID-like / min-support filter of `pick_target`. -/
def filteredCands (t : Table) : List String :=
  (numColNames t).filter (fun c => !is_idlike t c && decide (6 ≤ nonNullCount t c))

/-- `candidates = [...] or num_cols` (an empty list is falsy). -/
def candidatesOf (t : Table) : List String :=
  if filteredCands t = [] then numColNames t else filteredCands t

/-- Sample variance (`Series.var`, ddof = 1) of the non-null values of a
numeric column; pandas yields NaN for fewer than two points and the caller
applies `.fillna(0.0)`, so that case is `0` here. -/
def colVar (t : Table) (c : String) : ℚ :=
  let xs := dropNone (numValsOf t c)
  if xs.length < 2 then 0
  else ((xs.map (fun x => (x - qmean xs) ^ 2)).sum) / (xs.length - 1 : ℚ)

/-- `pick_target` (lines 252-298), translated clause by clause.  The final
`return candidates[0]` of the source is reachable only when `candidates`
is empty, which cannot happen past the early `num_cols == []` return; it is
the `[]` branch of the last match. -/
def pick_target (t : Table) : Option String × String :=
  if numColNames t = [] then (none, "sum")
  else
    match firstHit prefs_sum (lowerDict (candidatesOf t)) with
    | some c => (some c, "sum")
    | none =>
      match firstHit prefs_mean (lowerDict (candidatesOf t)) with
      | some c => (some c, "mean")
      | none =>
        match candidatesOf t with
        | [] => (none, "sum")
        | c0 :: cr =>
          (some (pickMax (c0, colVar t c0) (cr.map (fun c => (c, colVar t c)))).1,
           "sum")

/-- The selection rule claim C1 ascribes to the code, written from the
claim's words: the first candidate in original column order whose lowered
name contains any sum keyword. -/
def specFirstSumMatchByColumn (t : Table) : Option String :=
  (candidatesOf t).find? (fun c => prefs_sum.any (fun p => strContains (strLower c) p))

/-! ## `chart_data` (main.py lines 175-249) -/

structure HistogramC where
  column : String
  bins : List ℚ
  counts : List ℕ
deriving DecidableEq, Repr

structure BarCountC where
  column : String
  labels : List String
  counts : List ℕ
deriving DecidableEq, Repr

structure PieC where
  column : String
  labels : List String
  values : List ℕ
deriving DecidableEq, Repr

structure HeatmapC where
  columns : List String
  matrix : List (List ℚ)
deriving DecidableEq, Repr

structure ScatterC where
  xCol : String
  yCol : String
  x : List ℚ
  y : List ℚ
deriving DecidableEq, Repr

/-- One series of the daily time-series chart; bucket labels are day
numbers (the source serialises them with `strftime("%Y-%m-%d")`). -/
structure SeriesC where
  metric : String
  x : List ℤ
  y : List ℚ
deriving DecidableEq, Repr

structure TimeseriesC where
  dateCol : String
  series : List SeriesC
deriving DecidableEq, Repr

structure ChartBundle where
  histograms : List HistogramC
  barCounts : List BarCountC
  pie : Option PieC
  heatmap : Option HeatmapC
  scatter : Option ScatterC
  timeseries : Option TimeseriesC
deriving DecidableEq, Repr

/-- `Series.value_counts()`: tally in first-encounter order, then order by
descending count.  (Pandas does not specify the relative order of equal
counts; this embedding keeps first-encounter order there.) -/
def bumpCount (acc : List (String × ℕ)) (s : String) : List (String × ℕ) :=
  match acc with
  | [] => [(s, 1)]
  | (k, n) :: rest => if k = s then (k, n + 1) :: rest else (k, n) :: bumpCount rest s

def firstOccCounts (l : List String) : List (String × ℕ) :=
  l.foldl bumpCount []

def value_counts (l : List String) : List (String × ℕ) :=
  sortDescBy (fun kv => (kv.2 : ℚ)) (firstOccCounts l)

/-- `astype(str)`: after stringification no cell is missing any more. -/
def astypeStrCol (v : ColVals) : List (Option String) :=
  (cellStrList v).map some

/-- `fillna(repl)` on a stringified column (dead after `astype(str)`, exactly
as in the source where `.fillna("NaN")` follows `.astype(str)`). -/
def fillnaStr (repl : String) (l : List (Option String)) : List String :=
  l.map (fun c => match c with | none => repl | some s => s)

/-- The transform of lines 195 and 201: `sample[c].astype(str).fillna("NaN")`
followed by `value_counts()`. -/
def catCounts (t : Table) (c : String) : List (String × ℕ) :=
  value_counts (fillnaStr "NaN" (astypeStrCol ((getCol t c).getD (.text []))))

def minQ (h : ℚ) (tl : List ℚ) : ℚ := tl.foldl min h
def maxQ (h : ℚ) (tl : List ℚ) : ℚ := tl.foldl max h
def minZ (h : ℤ) (tl : List ℤ) : ℤ := tl.foldl min h
def maxZ (h : ℤ) (tl : List ℤ) : ℤ := tl.foldl max h

/-- `np.histogram(s, bins=20)` on a nonempty list: 21 equal-width edges over
`[min, max]` (expanded by ±0.5 when all values coincide), each bin half-open
except the last, which is closed. -/
def histogramOf (c : String) (x0 : ℚ) (xs : List ℚ) : HistogramC :=
  let mn := minQ x0 xs
  let mx := maxQ x0 xs
  let lo := if mn = mx then mn - 1/2 else mn
  let hi := if mn = mx then mx + 1/2 else mx
  let edge := fun (i : ℕ) => lo + (i : ℚ) * (hi - lo) / 20
  let all := x0 :: xs
  { column := c
    bins := (List.range 21).map edge
    counts := (List.range 20).map (fun i =>
      all.countP (fun v =>
        decide (edge i ≤ v) &&
          (decide (v < edge (i + 1)) || (i = 19 && decide (v ≤ edge 20))))) }

/-- `sample[[xc, yc]].dropna()`: jointly non-null (x, y) pairs in row order. -/
def pairedRows (t : Table) (xc yc : String) : List (ℚ × ℚ) :=
  (List.zip (numValsOf t xc) (numValsOf t yc)).filterMap (fun p =>
    match p with
    | (some a, some b) => some (a, b)
    | _ => none)

/-- `np.round(·, 4)`.  (NumPy rounds halves to even; the half-up `round` is
used here — no half-integer multiple of 1/10000 arises in any statement
below.) -/
def round4 (q : ℚ) : ℚ := ((round (q * 10000) : ℤ) : ℚ) / 10000

/-- The pairwise correlation matrix of the numeric columns of `t` (the
entries `lib.corr` of `DataFrame.corr(...).fillna(0.0)`). -/
def corrMatrixOf (lib : ExtLib) (t : Table) : List (List ℚ) :=
  (numColNames t).map (fun ci =>
    (numColNames t).map (fun cj => lib.corr (numValsOf t ci) (numValsOf t cj)))

/-- Lines 210-213: zero the diagonal of the absolute correlation matrix and
take the row-major argmax (`np.argmax` first occurrence). -/
def scatterPairOf (lib : ExtLib) (t : Table) : String × String :=
  let names := numColNames t
  let a := (corrMatrixOf lib t).mapIdx (fun r row =>
    row.mapIdx (fun c v => if r = c then 0 else |v|))
  let idx := firstMaxIdxQ a.flatten
  (names.getD (idx / names.length) "", names.getD (idx % names.length) "")

/-- The chart sample (line 181): a fixed-seed draw of 2000 rows above 2000
rows, the table itself otherwise.  The seed is the literal `42` regardless of
any ambient randomness `rng`. -/
def chartSample (lib : ExtLib) (t : Table) : Table :=
  if 2000 < t.nRows then lib.sample 42 t else t

/-- The daily time-series chart (lines 219-241). -/
def timeseriesOf (t : Table) : Option TimeseriesC :=
  match dtColNames t with
  | [] => none
  | tc :: _ =>
    let dts := dtValsOf t tc
    let metrics := (numColsOf t).take 2
    let rows := fun (c : String) =>
      (List.zip dts (numValsOf t c)).filterMap (fun p =>
        match p with
        | (some d, v) => some (d, v)
        | (none, _) => none)
    match dropNone dts with
    | [] => none
    | d0 :: drest =>
      if metrics.isEmpty then none
      else
        let lo := minZ d0 drest
        let hi := maxZ d0 drest
        let days := (List.range (hi - lo + 1).toNat).map (fun i => lo + (i : ℤ))
        let cell := fun (c : String) (b : ℤ) =>
          let vs := dropNone (((rows c).filter (fun p => p.1 == b)).map (·.2))
          if vs.isEmpty then none else some (qmean vs)
        let kept := (days.filter (fun b =>
          !(metrics.all (fun m => (cell m.1 b).isNone)))).take 400
        some { dateCol := tc
               series := metrics.map (fun m =>
                 { metric := m.1
                   x := kept
                   y := kept.map (fun b => (cell m.1 b).getD 0) }) }

/-- `chart_data` (lines 175-249).  `rng` is the ambient randomness a run
could in principle consume; the sampling seed is pinned to 42 so it is never
read. -/
def chart_data (lib : ExtLib) (_rng : ℕ) (t : Table) : ChartBundle :=
  let sample := chartSample lib t
  let hists := ((numColNames t).take 6).filterMap (fun c =>
    match dropNone (numValsOf sample c) with
    | [] => none
    | x0 :: xs => some (histogramOf c x0 xs))
  let bars := ((catColNames t).take 6).map (fun c =>
    let vc := (catCounts sample c).take 10
    { column := c, labels := vc.map (·.1), counts := vc.map (·.2) : BarCountC })
  let pie := match catColNames t with
    | [] => none
    | c :: _ =>
      let vc := (catCounts sample c).take 8
      some { column := c, labels := vc.map (·.1), values := vc.map (·.2) : PieC }
  let heatmap := if 2 ≤ (numColNames t).length then
      some { columns := numColNames t
             matrix := (corrMatrixOf lib sample).map (fun row => row.map round4)
             : HeatmapC }
    else none
  let scatter := if 2 ≤ (numColNames t).length then
      let xy := scatterPairOf lib sample
      let pts := (pairedRows sample xy.1 xy.2).take 500
      if pts.isEmpty then none
      else some { xCol := xy.1, yCol := xy.2
                  x := pts.map (·.1), y := pts.map (·.2) : ScatterC }
    else none
  { histograms := hists
    barCounts := bars
    pie := pie
    heatmap := heatmap
    scatter := scatter
    timeseries := timeseriesOf sample }

/-! ## `simple_forecast` (main.py lines 311-393) -/

/-- The produced forecast record.  Metrics: `rmse` of the source is
`√mse`; the rational `mse` is stored so the record stays computable, the
square root being taken only at serialisation.  An empty holdout makes the
three means NaN in NumPy (a warning, not an exception); here the mean of an
empty list is 0.  Bucket labels (`backtest_x`, `forecast_x`) are day
numbers, serialised to date strings by the source. -/
structure ForecastResult where
  target : String
  dateCol : String
  horizon : ℕ
  freq : String
  agg : String
  mae : ℚ
  mse : ℚ
  mape : ℚ
  backtest_x : List ℤ
  backtest_ytrue : List ℚ
  backtest_yhat : List ℚ
  forecast_x : List ℤ
  forecast_yhat : List ℚ
  note : String
deriving DecidableEq, Repr

/-- The candidate frequencies pandas' `resample`/`to_offset` accepts here;
any other string raises inside the `try` block. -/
def validFreq (f : String) : Bool := f = "D" || f = "W" || f = "M"

/-- `mins = {"D": 10, "W": 6, "M": 4}`. -/
def minsOf (f : String) : ℕ := if f = "D" then 10 else if f = "W" then 6 else 4

/-- `default_h = {"D": 14, "W": 8, "M": 6}`. -/
def defaultH (f : String) : ℕ := if f = "D" then 14 else if f = "W" then 8 else 6

/-- The resampling bucket of a day: the day itself for `D`, the `W-SUN`
week (labelled by its Sunday) for `W`, the calendar month for `M`. -/
def bucketOf (f : String) (d : ℤ) : ℤ :=
  if f = "D" then d else if f = "W" then (d + 3).fdiv 7 else monthIdx d

/-- The pandas label of a bucket: the day, the week's Sunday, or the
month's last day. -/
def labelOf (f : String) (b : ℤ) : ℤ :=
  if f = "D" then b else if f = "W" then b * 7 + 3 else monthEndDay b

/-- `s[target].resample(f).sum().dropna()` / `.mean().dropna()` on a
nonempty series: buckets cover the whole span from the first to the last
observation.  An empty bucket sums to `0` (and survives `dropna`), while its
mean is NaN (and is dropped) — the sum/mean asymmetry of pandas that the
bucket-count gate below inherits. -/
def resampleOk (f agg : String) (s : List (ℤ × ℚ)) : List (ℤ × ℚ) :=
  match s with
  | [] => []
  | p0 :: rest =>
    let bs := (p0 :: rest).map (fun p => (bucketOf f p.1, p.2))
    let lo := minZ (bucketOf f p0.1) (rest.map (fun p => bucketOf f p.1))
    let hi := maxZ (bucketOf f p0.1) (rest.map (fun p => bucketOf f p.1))
    ((List.range (hi - lo + 1).toNat).map (fun i => lo + (i : ℤ))).filterMap
      (fun b =>
        let vals := (bs.filter (fun p => p.1 == b)).map (·.2)
        if agg = "sum" then some (labelOf f b, vals.sum)
        else if vals.isEmpty then none
        else some (labelOf f b, qmean vals))

/-- The seasonal category of a bucket label: day-of-week for `D`/`W`
(`dfm.index.dayofweek`), month for `M` (`dfm.index.month`). -/
def seasonIdxOf (f : String) (lbl : ℤ) : ℤ :=
  if f = "D" || f = "W" then dowOf lbl else (civilFromDays lbl).2.1

/-- The dummy categories `pd.get_dummies` creates: the observed categories,
sorted ascending. -/
def trainCats (f : String) (y : List (ℤ × ℚ)) : List ℤ :=
  sortZ ((y.map (fun p => seasonIdxOf f p.1)).dedup)

/-- One-hot encoding of a category against a fixed column list — also the
reindexing of future dummies onto the training columns (lines 363-366):
unseen future categories vanish, absent ones give an all-zero row. -/
def oneHot (cats : List ℤ) (v : ℤ) : List ℚ :=
  cats.map (fun c => if c == v then 1 else 0)

/-- The design matrix `X = [1 | t | seasonal dummies]` (line 344). -/
def buildX (f : String) (y : List (ℤ × ℚ)) : List (List ℚ) :=
  y.mapIdx (fun i p => 1 :: (i : ℚ) :: oneHot (trainCats f y) (seasonIdxOf f p.1))

def dotQ (xs ys : List ℚ) : ℚ := (List.zipWith (· * ·) xs ys).sum

/-- Lines 334-388: everything after the bucket-count gate passes, for the
frequency `f` with resampled series `y` and fitted coefficients `beta`. -/
def fitResult (f agg : String) (hor : Option ℕ) (target dateCol : String)
    (y : List (ℤ × ℚ)) (beta : List ℚ) : ForecastResult :=
  let n := y.length
  let x := buildX f y
  let yv := y.map (·.2)
  let yhat := x.map (fun row => dotQ row beta)
  let split := max 5 (4 * n / 5)
  let ytb := yv.drop split
  let yhb := yhat.drop split
  let h := match hor with
    | some k => if k = 0 then defaultH f else k   -- `horizon or default_h[f]`
    | none => defaultH f
  let lastB := bucketOf f (((y.getLast?).map (·.1)).getD 0)
  let futureLabels := (List.range h).map (fun i => labelOf f (lastB + 1 + (i : ℤ)))
  let xfut := futureLabels.mapIdx (fun i lbl =>
    1 :: ((n : ℚ) + (i : ℚ)) :: oneHot (trainCats f y) (seasonIdxOf f lbl))
  { target := target
    dateCol := dateCol
    horizon := h
    freq := f
    agg := agg
    mae := ((List.zipWith (fun a b => |a - b|) ytb yhb).sum) / (ytb.length : ℚ)
    mse := ((List.zipWith (fun a b => (a - b) ^ 2) ytb yhb).sum) / (ytb.length : ℚ)
    mape := (((List.zipWith (fun a b =>
        |(a - b) / (if a = 0 then 1 / 1000000000 else a)|) ytb yhb).sum) /
        (ytb.length : ℚ)) * 100
    backtest_x := (y.map (·.1)).drop split
    backtest_ytrue := ytb
    backtest_yhat := yhb
    forecast_x := futureLabels
    forecast_yhat := xfut.map (fun row => dotQ row beta)
    note := "Trend + simple seasonal model on " ++ f ++ "-aggregated " ++
            target ++ " (" ++ agg ++ ")." }

/-- The `for f in freqs` loop with its `last_reason` accumulator.  An
invalid frequency string or a solver failure surfaces on the `Except`
channel — the exceptions the enclosing `try` catches. -/
def sfLoop (lstsqF : List (List ℚ) → List ℚ → Except String (List ℚ))
    (target dateCol agg : String) (hor : Option ℕ) (s : List (ℤ × ℚ)) :
    List String → String → Except String (Option ForecastResult × String)
  | [], lastReason => .ok (none, lastReason)
  | f :: rest, _lastReason =>
    if validFreq f then
      let y := resampleOk f agg s
      if y.length < minsOf f then
        sfLoop lstsqF target dateCol agg hor s rest
          ("insufficient_points_" ++ strLower f ++ "=" ++ toString y.length)
      else
        match lstsqF (buildX f y) (y.map (·.2)) with
        | .error e => .error e
        | .ok beta => .ok (some (fitResult f agg hor target dateCol y beta), "")
    else .error ("Invalid frequency: " ++ f)

/-- `df[[date_col, target]].dropna(...)`: rows where both cells are present. -/
def cleanRows (rows : List (Option ℤ × Option ℚ)) : List (ℤ × ℚ) :=
  rows.filterMap (fun p =>
    match p with
    | (some d, some v) => some (d, v)
    | _ => none)

/-- `s.set_index(date_col).sort_index()`. -/
def sortRows (s : List (ℤ × ℚ)) : List (ℤ × ℚ) := sortAscByZ (·.1) s

/-- The body of the `try` block of `simple_forecast`, taking the
`(date, target)` column pair as rows. -/
def sfCore (lstsqF : List (List ℚ) → List ℚ → Except String (List ℚ))
    (rows : List (Option ℤ × Option ℚ)) (dateCol target agg freqArg : String)
    (hor : Option ℕ) : Except String (Option ForecastResult × String) :=
  let s0 := cleanRows rows
  if s0.isEmpty then .ok (none, "no_valid_rows_after_parsing")
  else
    sfLoop lstsqF target dateCol agg hor (sortRows s0)
      (if freqArg = "auto" then ["D", "W", "M"] else [freqArg]) "unknown"

/-- `simple_forecast` (lines 311-393): the `try/except` wrapper mapping any
escaped exception `e` to `(None, "forecast_error: " + e)`. -/
def simple_forecast (lstsqF : List (List ℚ) → List ℚ → Except String (List ℚ))
    (rows : List (Option ℤ × Option ℚ)) (dateCol target agg freqArg : String)
    (hor : Option ℕ) : Option ForecastResult × String :=
  match sfCore lstsqF rows dateCol target agg freqArg hor with
  | .ok p => p
  | .error e => (none, "forecast_error: " ++ e)

/-- The quantity claim C4 speaks about: the number of non-empty daily
buckets of the (date, target) series, i.e. its distinct days. -/
def distinctDailyBuckets (rows : List (Option ℤ × Option ℚ)) : ℕ :=
  ((cleanRows rows).map (·.1)).dedup.length

/-! ## `summarize_dataframe` (main.py lines 147-156)

Only the fields the insight synthesizer reads are modelled (`rows`,
`columns`, `missing_by_col`, `missing_total`); memory footprint, dtype
strings and the duplicate-row count are representation details no claim
touches. -/

structure SummaryS where
  rows : ℕ
  columns : ℕ
  missing_total : ℕ
  missingByCol : List (String × ℕ)
deriving DecidableEq, Repr

def summarize (t : Table) : SummaryS :=
  { rows := t.nRows
    columns := t.cols.length
    missing_total := (t.cols.map (fun c => countNullCol c.2)).sum
    missingByCol := t.cols.map (fun c => (c.1, countNullCol c.2)) }

/-! ## Sample skewness (pandas `Series.skew`) -/

/-- `k`-th central moment (divide by `n`), as pandas' `nanskew` builds it. -/
def centM (k : ℕ) (xs : List ℚ) : ℚ :=
  ((xs.map (fun x => (x - qmean xs) ^ k)).sum) / (xs.length : ℚ)

/-- The strict `abs(skew) > 1` test of insight rule 4, in exact arithmetic.
Pandas computes the adjusted Fisher-Pearson coefficient
`G1 = √(n(n-1)) / (n-2) · m3 / m2^{3/2}`; for `n ≥ 3` and `m2 > 0`,
`|G1| > 1  ↔  n(n-1)·m3² > (n-2)²·m2³`, which is rational.  (For `m2 = 0`
the source's skew is NaN/0 and the comparison is false — as here, where
`m2 = 0` forces `m3 = 0`.) -/
def skewGtOne (xs : List ℚ) : Bool :=
  decide ((xs.length : ℚ) * ((xs.length : ℚ) - 1) * (centM 3 xs) ^ 2 >
    ((xs.length : ℚ) - 2) ^ 2 * (centM 2 xs) ^ 3)

/-- The sample skewness itself (the real number whose magnitude the claim
compares with 1). -/
noncomputable def sampleSkew (xs : List ℚ) : ℝ :=
  (Real.sqrt ((xs.length : ℝ) * ((xs.length : ℝ) - 1)) * ((centM 3 xs : ℚ) : ℝ)) /
    (((xs.length : ℝ) - 2) * Real.sqrt (((centM 2 xs : ℚ) : ℝ) ^ 3))

/-! ## `insights` (main.py lines 550-590)

Findings are structured values; the source renders each as one sentence
(with numbers to 1-2 decimals), a presentation step with no logic in it. -/

inductive Finding : Type
  | missing (col : String) (cnt : ℕ) (pct : ℚ)
  | correlation (c1 c2 : String) (absR : ℚ)
  | dominantCat (col : String) (label : String) (share : ℚ)
  | skewed (col : String) (rightSkew : Bool)
  | forecastTotal (target : String) (total : ℚ) (horizon : ℕ) (freq : String)
  | healthy
deriving DecidableEq, Repr

/-- Rule 1 (lines 553-559): three largest missing counts (stable descending
sort), reported when positive. -/
def insightsMissing (summary : SummaryS) : List Finding :=
  if summary.missingByCol.isEmpty then []
  else
    ((sortDescBy (fun kv => (kv.2 : ℚ)) summary.missingByCol).take 3).filterMap
      (fun kv =>
        if 0 < kv.2 then
          some (.missing kv.1 kv.2
            (if summary.rows ≠ 0 then (kv.2 : ℚ) / (summary.rows : ℚ) * 100 else 0))
        else none)

/-- `np.fill_diagonal(mat, 0)` on the matrix the heatmap stored. -/
def zeroDiag (mat : List (List ℚ)) : List (List ℚ) :=
  mat.mapIdx (fun r row => row.mapIdx (fun c v => if r = c then 0 else v))

/-- `mat.shape[1]` of a list-of-rows matrix. -/
def matNcols (mat : List (List ℚ)) : ℕ := ((mat.head?).map List.length).getD 0

/-- Row index of `np.unravel_index(np.argmax(np.abs(mat)), mat.shape)` after
the diagonal is zeroed. -/
def corrTopI (mat : List (List ℚ)) : ℕ :=
  firstMaxIdxQ ((zeroDiag mat).flatten.map (fun v => |v|)) / matNcols (zeroDiag mat)

def corrTopJ (mat : List (List ℚ)) : ℕ :=
  firstMaxIdxQ ((zeroDiag mat).flatten.map (fun v => |v|)) % matNcols (zeroDiag mat)

/-- `mat[i, j]` at that position. -/
def corrTopVal (mat : List (List ℚ)) : ℚ :=
  ((zeroDiag mat).getD (corrTopI mat) []).getD (corrTopJ mat) 0

/-- Rule 2 (lines 561-570): strongest off-diagonal correlation of the
(rounded) heatmap matrix, reported when `|r| ≥ 0.6`. -/
def insightsCorr (hm : Option HeatmapC) : List Finding :=
  match hm with
  | none => []
  | some h =>
    if (h.matrix.map List.length).sum = 0 then []
    else if 6 / 10 ≤ |corrTopVal h.matrix| then
      [.correlation (h.columns.getD (corrTopI h.matrix) "")
        (h.columns.getD (corrTopJ h.matrix) "") |corrTopVal h.matrix|]
    else []

/-- Rule 3 (lines 572-575): share of the top category of the first two bar
charts. -/
def insightsBars (bars : List BarCountC) : List Finding :=
  (bars.take 2).filterMap (fun b =>
    match b.labels with
    | [] => none
    | l0 :: _ =>
      let tot := b.counts.sum
      some (.dominantCat b.column l0
        (((b.counts.headD 0 : ℚ)) / ((if tot = 0 then 1 else tot : ℕ) : ℚ) * 100)))

/-- Rule 4 (lines 577-582): skew report for the first two numeric columns
with more than 10 non-null values, when `|skew| > 1` strictly. -/
def insightsSkew (t : Table) : List Finding :=
  ((numColsOf t).take 2).filterMap (fun c =>
    let s := dropNone c.2
    if 10 < s.length then
      if skewGtOne s then some (.skewed c.1 (decide (0 < centM 3 s))) else none
    else none)

/-- Rule 5 (lines 584-587): projected total over the horizon. -/
def insightsForecast (fc : Option ForecastResult) : List Finding :=
  match fc with
  | none => []
  | some r => [.forecastTotal r.target r.forecast_yhat.sum r.horizon r.freq]

/-- `insights` (lines 550-590), rules in order, with the non-empty fallback. -/
def insights (t : Table) (summary : SummaryS) (ch : ChartBundle)
    (fc : Option ForecastResult) : List Finding :=
  if (insightsMissing summary ++ insightsCorr ch.heatmap ++
      insightsBars ch.barCounts ++ insightsSkew t ++
      insightsForecast fc).isEmpty then [.healthy]
  else
    insightsMissing summary ++ insightsCorr ch.heatmap ++
      insightsBars ch.barCounts ++ insightsSkew t ++ insightsForecast fc

/-! ## `coerce_dates` (main.py lines 67-144) and `pick_date_col` (301-308) -/

/-- `try_parse_series` (lines 76-82): attempt month-first then day-first;
accept a parse when `parsed.notna().mean() >= 0.4` — the denominator being
the full column length, nulls included, since `astype(str)` turns a missing
value into the unparsable string `"nan"` — and the parsed values hold at
least 6 distinct timestamps. -/
def tpsAttempt (lib : ExtLib) (s : ColVals) (dayfirst : Bool) : List (Option ℤ) :=
  (cellStrList s).map (lib.toDT dayfirst)

def tpsAccept (parsed : List (Option ℤ)) : Bool :=
  decide ((2 : ℚ) / 5 ≤ (parsed.countP (·.isSome) : ℚ) / (parsed.length : ℚ)) &&
    decide (6 ≤ (parsed.filterMap id).dedup.length)

def try_parse_series (lib : ExtLib) (s : ColVals) : Option (List (Option ℤ)) :=
  let p0 := tpsAttempt lib s false
  if tpsAccept p0 then some p0
  else
    let p1 := tpsAttempt lib s true
    if tpsAccept p1 then some p1 else none

/-- The acceptance rule as claim C3 states it: the parse rate taken over the
column's non-null values.  (Spec-side comparandum only.) -/
def specAcceptNonNull (lib : ExtLib) (s : ColVals) (dayfirst : Bool) : Bool :=
  let parsed := tpsAttempt lib s dayfirst
  let nonNull := colLen s - countNullCol s
  decide ((2 : ℚ) / 5 ≤ (parsed.countP (·.isSome) : ℚ) / (nonNull : ℚ)) &&
    decide (6 ≤ (parsed.filterMap id).dedup.length)

def dateNameKeys : List String :=
  ["date", "time", "timestamp", "datetime", "orderdate", "order_date",
   "invoice", "sale", "created", "posted"]

/-- Python `int(·)` on a stripped string (sign and digits only; anything
else raises, i.e. `none`). -/
def strToIntQ (s : String) : Option ℤ :=
  let core := fun (ds : List Char) =>
    if ds ≠ [] ∧ ds.all Char.isDigit then
      some (ds.foldl (fun acc c => acc * 10 + ((c.toNat : ℤ) - 48)) 0)
    else none
  match s.data with
  | '-' :: rest => (core rest).map Neg.neg
  | '+' :: rest => core rest
  | ds => core ds

def monthShort : List (String × ℤ) :=
  [("jan", 1), ("feb", 2), ("mar", 3), ("apr", 4), ("may", 5), ("jun", 6),
   ("jul", 7), ("aug", 8), ("sep", 9), ("oct", 10), ("nov", 11), ("dec", 12)]

/-- `to_month` (lines 126-134). -/
def to_month (v : String) : Option ℤ :=
  let s := strLower (strTrim v)
  match (monthShort.find? (fun kv => kv.1 = String.mk (s.data.take 3))).map (·.2) with
  | some m => some m
  | none =>
    match strToIntQ s with
    | some n => if 1 ≤ n ∧ n ≤ 12 then some n else none
    | none => none

/-- Python truthiness of `dict.get`: `None` and `""` are falsy. -/
def truthy (o : Option String) : Option String :=
  match o with
  | some s => if s = "" then none else some s
  | none => none

/-- Name lookup `{c.lower(): c for c in df.columns}.get(k)`. -/
def lowerColGet (t : Table) (k : String) : Option String :=
  ((lowerDict (t.cols.map (·.1))).find? (fun kv => kv.1 = k)).map (·.2)

/-- Numeric view of a column for the year/month/day synthesis: pandas
receives the raw values; non-numeric kinds make `pd.to_datetime(dict(...))`
raise inside the swallowed `try`, modelled as all-null input. -/
def colAsQ (t : Table) (c : String) : List (Option ℚ) :=
  match getCol t c with
  | some (.num vs) => vs
  | _ => []

/-- Passes 2 and 3 of `coerce_dates`: walk the listed column names, parse
each not-yet-temporal one with `try_parse_series`, replacing the column and
recording its name on success.  `onlyText` restricts to object columns
(pass 2); pass 3 takes any non-temporal column. -/
def coercePass (lib : ExtLib) (names : List String) (onlyText : Bool)
    (st : Table × List String) : Table × List String :=
  names.foldl (fun (acc : Table × List String) (c : String) =>
    let t := acc.1
    let dts := acc.2
    match getCol t c with
    | none => acc
    | some v =>
      if c ∈ dts || isDtKind v ||
          (onlyText && !(match v with | .text _ => true | _ => false)) then acc
      else
        match try_parse_series lib v with
        | none => acc
        | some parsed =>
          ({ t with cols := t.cols.map (fun kv =>
              if kv.1 = c then (kv.1, ColVals.dt parsed) else kv) }, dts ++ [c])) st

/-- `coerce_dates` (lines 67-144): the four detection passes, returning the
coerced table and the accepted temporal column names. -/
def coerce_dates (lib : ExtLib) (t0 : Table) : Table × List String :=
  -- pass 1: columns already temporal
  let st0 : Table × List String := (t0, dtColNames t0)
  -- pass 2: object columns
  let st1 := coercePass lib (t0.cols.map (·.1)) true st0
  -- pass 3: keyword-named columns, any kind, same thresholds
  let nameHits := (st1.1.cols.map (·.1)).filter (fun c =>
    dateNameKeys.any (fun k => strContains (strLower c) k))
  let st2 := coercePass lib nameHits false st1
  -- pass 4: synthesize from year/month[/day]
  let t2 : Table := st2.1
  let dts2 : List String := st2.2
  let y := truthy (lowerColGet t2 "year")
  let m := truthy (lowerColGet t2 "month")
  let d := truthy (lowerColGet t2 "day")
  let st3 : Table × List String :=
    match y, m with
    | some yc, some mc =>
      if (t2.cols.map (·.1)).contains "__auto_date__" then (t2, dts2)
      else
        let dayVals : List (Option ℚ) := match d with
          | some dc => colAsQ t2 dc
          | none => List.replicate t2.nRows (some 1)
        let synth := (List.range t2.nRows).map (fun i =>
          lib.mkYMD ((colAsQ t2 yc).getD i none) ((colAsQ t2 mc).getD i none)
            (dayVals.getD i none))
        if 6 ≤ synth.countP (·.isSome) then
          ({ t2 with cols := t2.cols ++ [("__auto_date__", ColVals.dt synth)] },
           dts2 ++ ["__auto_date__"])
        else (t2, dts2)
    | _, _ => (t2, dts2)
  -- pass 5: synthesize from year + month name
  let t3 : Table := st3.1
  let dts3 : List String := st3.2
  let mn := match truthy (lowerColGet t3 "monthname") with
    | some s => some s
    | none => match truthy (lowerColGet t3 "month_name") with
      | some s => some s
      | none => truthy (lowerColGet t3 "month name")
  match truthy (lowerColGet t3 "year"), mn with
  | some yc, some mnc =>
    if (t3.cols.map (·.1)).contains "__auto_date2__" then (t3, dts3)
    else
      let monthNum := (cellStrList ((getCol t3 mnc).getD (.text []))).map to_month
      let synth2 := (List.range t3.nRows).map (fun i =>
        lib.mkYMD ((colAsQ t3 yc).getD i none)
          ((monthNum.getD i none).map (fun z => (z : ℚ))) (some 1))
      if 6 ≤ synth2.countP (·.isSome) then
        ({ t3 with cols := t3.cols ++ [("__auto_date2__", ColVals.dt synth2)] },
         dts3 ++ ["__auto_date2__"])
      else (t3, dts3)
  | _, _ => (t3, dts3)

/-- `pick_date_col` (lines 301-308): the temporal column with the most
distinct timestamps (stable descending sort, so first in column order on
ties), required to have at least 6. -/
def pick_date_col (t : Table) : Option String :=
  match dtColNames t with
  | [] => none
  | c :: cs =>
    let top := (pickMax (c, (nuniqueCol ((getCol t c).getD (.dt [])) : ℚ))
      (cs.map (fun c' => (c', (nuniqueCol ((getCol t c').getD (.dt [])) : ℚ))))).1
    if 6 ≤ nuniqueCol ((getCol t top).getD (.dt [])) then some top else none

/-! ## The analysis pipeline of `analyze` (main.py lines 596-624)

Detection, aggregation and forecasting over one immutable table.  `rng`
stands for whatever ambient randomness a run could consume; the engine pins
its only stochastic step to seed 42 and so never reads it. -/

def detectForecast (lib : ExtLib) (t2 : Table) : Option ForecastResult × String :=
  match pick_date_col t2, pick_target t2 with
  | some dc, (some tg, agg) =>
    simple_forecast lib.lstsq
      (List.zip (dtValsOf t2 dc) (numValsOf t2 tg)) dc tg agg "auto" none
  | none, (none, _) => (none, "no_date_and_no_numeric_target_detected")
  | none, (some _, _) => (none, "no_date_column_detected")
  | some _, (none, _) => (none, "no_numeric_target_detected")

def analyzePipeline (lib : ExtLib) (rng : ℕ) (t : Table) :
    ChartBundle × (Option ForecastResult × String) × List Finding :=
  let t2 := (coerce_dates lib t).1
  let summary := summarize t2
  let charts := chart_data lib rng t2
  let fres := detectForecast lib t2
  (charts, fres, insights t2 summary charts fres.1)

/-! ## Concrete instances used by the witnesses and counterexamples -/

/-- A trivial solver: `np.linalg.lstsq` succeeding with the zero model. -/
def lstsq0 : List (List ℚ) → List ℚ → Except String (List ℚ) :=
  fun _ _ => Except.ok []

/-- A date parser for tests: `"d<k>"` parses to day `k`, everything else
(including the stringified nulls `"nan"` / `"NaT"`) to NaT. -/
def toyDT : Bool → String → Option ℤ := fun _ s =>
  match s.data with
  | 'd' :: rest => strToIntQ (String.mk rest)
  | _ => none

/-- A concrete library instance for witnesses: identity sampling (sampling
only triggers above 2000 rows anyway), zero correlations, the trivial
solver. -/
def libW : ExtLib where
  toDT := fun _ _ => none
  mkYMD := fun _ _ _ => none
  corr := fun _ _ => 0
  sample := fun _ t => t
  lstsq := lstsq0

/-- `libW` with the toy date parser. -/
def libToy : ExtLib where
  toDT := toyDT
  mkYMD := fun _ _ _ => none
  corr := fun _ _ => 0
  sample := fun _ t => t
  lstsq := lstsq0

def vals10 : List (Option ℚ) :=
  [some 1, some 1, some 2, some 3, some 4, some 5, some 6, some 6, some 6, some 6]

/-- Two candidate columns: `Revenue` before `Sales` in column order; both
names contain a sum keyword. -/
def tblC1 : Table :=
  { nRows := 10, cols := [("Revenue", .num vals10), ("Sales", .num vals10)] }

/-- Two numeric columns, both ID-like (all values distinct over 10 rows). -/
def tblC2 : Table :=
  { nRows := 10
    cols := [("id1", .num ((List.range 10).map (fun i => some ((i : ℚ) + 1)))),
             ("id2", .num ((List.range 10).map (fun i => some (((i : ℚ) + 1) * 10))))] }

/-- A text column of 20 cells: 13 nulls followed by 7 parseable, distinct
date strings — 65 % null, every non-null value parseable. -/
def colC3 : ColVals :=
  .text (List.replicate 13 none ++
    (List.range 7).map (fun i => some ("d" ++ toString (i + 1))))

/-- A text column of 20 parseable, distinct date strings. -/
def colC3ok : ColVals :=
  .text ((List.range 20).map (fun i => some ("d" ++ toString (i + 1))))

/-- 8 distinct days spanning 20 calendar days (days 0-6 and 19). -/
def rowsC4a : List (Option ℤ × Option ℚ) :=
  ([0, 1, 2, 3, 4, 5, 6, 19] : List ℤ).map (fun d => (some d, some (1 : ℚ)))

/-- 8 days, one per week (days 0, 7, …, 49). -/
def rowsC4b : List (Option ℤ × Option ℚ) :=
  ([0, 7, 14, 21, 28, 35, 42, 49] : List ℤ).map (fun d => (some d, some (1 : ℚ)))

/-- 8 consecutive days (0-7). -/
def rowsC4c : List (Option ℤ × Option ℚ) :=
  ([0, 1, 2, 3, 4, 5, 6, 7] : List ℤ).map (fun d => (some d, some (1 : ℚ)))

/-- The 30-row daily table of the end-to-end scenario: days 0-29 with values
100..129 — as the `(date, sales)` column pair. -/
def rowsC5 : List (Option ℤ × Option ℚ) :=
  (List.range 30).map (fun i => (some (i : ℤ), some ((100 : ℚ) + (i : ℚ))))

/-- The record `simple_forecast` produces on `rowsC5`. -/
def rC5 : ForecastResult :=
  fitResult "D" "sum" none "sales" "date"
    (resampleOk "D" "sum" (sortRows (cleanRows rowsC5))) []

/-- One categorical column with a missing value. -/
def tblC6 : Table :=
  { nRows := 4, cols := [("c", .text [some "a", some "a", none, some "b"])] }

/-- Eleven zeros and a single 10: strongly right-skewed. -/
def xsC7 : List ℚ := List.replicate 11 0 ++ [10]

def tblC7 : Table :=
  { nRows := 12, cols := [("v", .num (xsC7.map some))] }

/-- Two numeric columns whose maximal-|correlation| pair (under the
all-zero correlation matrix, the diagonal pair `(a, a)`) has no jointly
non-null row: column `a` is entirely null. -/
def tblC10 : Table :=
  { nRows := 2, cols := [("a", .num [none, none]), ("b", .num [some 1, some 2])] }

/-! ## Theorems -/


/-- C9: the detection + aggregation + forecasting pipeline is a pure
function of the table alone — two runs over the same immutable table, under
any two ambient randomness states, yield identical chart bundles, forecast
results and insights, because the one stochastic step (the chart sample) is
pinned to the literal seed 42 and every tie-break is deterministic. -/
theorem analyzePipeline_deterministic (lib : ExtLib) (t : Table) (rng1 rng2 : ℕ) :
    analyzePipeline lib rng1 t = analyzePipeline lib rng2 t := rfl

/-- C8: `simple_forecast` never raises to its caller — whatever error `e`
escapes the body of its `try` block (`sfCore`: an invalid frequency string,
a solver failure) is caught and returned as the pair
`(no forecast, "forecast_error: " ++ e)`. -/
theorem simple_forecast_catches (lstsqF : List (List ℚ) → List ℚ → Except String (List ℚ))
    (rows : List (Option ℤ × Option ℚ)) (dc tg agg freqArg : String) (hor : Option ℕ)
    (e : String) (h : sfCore lstsqF rows dc tg agg freqArg hor = .error e) :
    simple_forecast lstsqF rows dc tg agg freqArg hor = (none, "forecast_error: " ++ e) := by
  unfold simple_forecast
  rw [h]

theorem simple_forecast_catches_witness :
    sfCore (fun _ _ => Except.error "SVD did not converge") rowsC5 "date" "sales" "sum" "auto" none
      = .error "SVD did not converge" ∧
    simple_forecast (fun _ _ => Except.error "SVD did not converge") rowsC5 "date" "sales" "sum" "auto" none
      = (none, "forecast_error: SVD did not converge") :=
  ⟨rfl, simple_forecast_catches _ rowsC5 "date" "sales" "sum" "auto" none _ rfl⟩

/-- C6 (code evaluated at the failing input): on a categorical column
`["a", "a", null, "b"]` the bar counts and the pie label the missing value
`"nan"` — the string `astype(str)` produces — not the `"NaN"` sentinel the
spec (and the dead `.fillna("NaN")` in the source) intends; the categories
are listed in descending frequency order. -/
theorem barcounts_lowercase_nan :
    (chart_data libW 0 tblC6).barCounts =
      [{ column := "c", labels := ["a", "nan", "b"], counts := [2, 1, 1] }] ∧
    (chart_data libW 0 tblC6).pie =
      some { column := "c", labels := ["a", "nan", "b"], values := [2, 1, 1] } ∧
    "NaN" ∉ (["a", "nan", "b"] : List String) := by decide

/-- C1 counterexample: with candidate columns `Revenue` before `Sales`
(both numeric, both matching a sum keyword), the code returns `Sales` —
the first hit of the keyword-major scan (`"sales"` is the first keyword) —
whereas the claim's first-candidate-by-column-order rule names `Revenue`. -/
theorem pick_target_keyword_major_cex :
    pick_target tblC1 = (some "Sales", "sum") ∧
    specFirstSumMatchByColumn tblC1 = some "Revenue" ∧
    ("Sales" : String) ≠ "Revenue" := by decide

/-- C2 counterexample: a table with two numeric columns that are both
ID-like (distinct-value share 1.0 ≥ 0.98) falls back to all numeric columns
and picks the ID-like `id2` as target, though it is not the only numeric
column. -/
theorem idlike_chosen_cex :
    2 ≤ (numColNames tblC2).length ∧ is_idlike tblC2 "id2" = true ∧
    pick_target tblC2 = (some "id2", "sum") := by decide

/-- C3 counterexample: a 20-cell text column, 65 % null, whose 7 non-null
values all parse to 7 distinct timestamps, is rejected by
`try_parse_series` (7/20 < 40 %), though the claim's non-null-denominator
rule (7/7 ≥ 40 %, ≥ 6 distinct — `specAcceptNonNull`) accepts it. -/
theorem parse_rate_denominator_cex :
    try_parse_series libToy colC3 = none ∧
    specAcceptNonNull libToy colC3 false = true ∧
    5 * (colLen colC3 - countNullCol colC3) < 2 * colLen colC3 := by decide

/-- C4 counterexample: a sum-aggregated series with exactly 8 non-empty
daily buckets spread over 20 calendar days passes the Day gate (empty daily
buckets sum to 0 and are counted, so the count is 20 ≥ 10): the engine fits
at frequency D with an empty reason instead of recording
`insufficient_points_d=8` and trying weekly. -/
theorem eight_buckets_cex :
    distinctDailyBuckets rowsC4a = 8 ∧
    (simple_forecast lstsq0 rowsC4a "d" "t" "sum" "auto" none).2 = "" ∧
    (simple_forecast lstsq0 rowsC4a "d" "t" "sum" "auto" none).1.map (·.freq) = some "D" :=
  ⟨by decide, rfl, rfl⟩


/-! ### Helper lemmas about the dict/scan helpers -/

lemma mem_dictInsert {kv : String × String} {k v : String} :
    ∀ {d : List (String × String)}, kv ∈ dictInsert k v d → kv = (k, v) ∨ kv ∈ d := by
  intro d
  induction d with
  | nil => intro h; simpa [dictInsert] using h
  | cons hd tl ih =>
    rcases hd with ⟨k', v'⟩
    simp only [dictInsert]
    split
    · intro h
      rcases List.mem_cons.mp h with h | h
      · exact Or.inl h
      · exact Or.inr (List.mem_cons_of_mem _ h)
    · intro h
      rcases List.mem_cons.mp h with h | h
      · exact Or.inr (h ▸ List.mem_cons_self _ _)
      · rcases ih h with h1 | h1
        · exact Or.inl h1
        · exact Or.inr (List.mem_cons_of_mem _ h1)

lemma mem_lowerDict_aux {kv : String × String} :
    ∀ (cs : List String) (d0 : List (String × String)),
      kv ∈ cs.foldl (fun d c => dictInsert (strLower c) c d) d0 →
      kv ∈ d0 ∨ ∃ c ∈ cs, kv = (strLower c, c) := by
  intro cs
  induction cs with
  | nil => intro d0 h; exact Or.inl h
  | cons c cs ih =>
    intro d0 h
    rcases ih (dictInsert (strLower c) c d0) h with h1 | h1
    · rcases mem_dictInsert h1 with h2 | h2
      · exact Or.inr ⟨c, List.mem_cons_self _ _, h2⟩
      · exact Or.inl h2
    · rcases h1 with ⟨c', hc', he⟩
      exact Or.inr ⟨c', List.mem_cons_of_mem _ hc', he⟩

lemma mem_lowerDict {kv : String × String} {cands : List String}
    (h : kv ∈ lowerDict cands) : ∃ c ∈ cands, kv = (strLower c, c) := by
  rcases mem_lowerDict_aux cands [] h with h1 | h1
  · simp at h1
  · exact h1

lemma dictInsert_key_self (k v : String) : ∀ d, ∃ w, (k, w) ∈ dictInsert k v d := by
  intro d
  induction d with
  | nil => exact ⟨v, by simp [dictInsert]⟩
  | cons hd tl ih =>
    rcases hd with ⟨k', v'⟩
    by_cases hk : k' = k
    · exact ⟨v, by simp [dictInsert, hk]⟩
    · rcases ih with ⟨w, hw⟩
      refine ⟨w, ?_⟩
      simp only [dictInsert, if_neg hk]
      exact List.mem_cons_of_mem _ hw

lemma dictInsert_key_stays {k0 k v : String} {d : List (String × String)}
    (h : ∃ w, (k0, w) ∈ d) : ∃ w, (k0, w) ∈ dictInsert k v d := by
  induction d with
  | nil => simpa using h
  | cons hd tl ih =>
    rcases hd with ⟨k', v'⟩
    rcases h with ⟨w, hw⟩
    by_cases hk : k' = k
    · rcases List.mem_cons.mp hw with he | hm
      · refine ⟨v, ?_⟩
        simp only [dictInsert, if_pos hk]
        have : k0 = k := by
          have := congrArg Prod.fst he
          simpa [hk] using this
        exact this ▸ List.mem_cons_self _ _
      · refine ⟨w, ?_⟩
        simp only [dictInsert, if_pos hk]
        exact List.mem_cons_of_mem _ hm
    · rcases List.mem_cons.mp hw with he | hm
      · refine ⟨w, ?_⟩
        simp only [dictInsert, if_neg hk]
        exact he ▸ List.mem_cons_self _ _
      · rcases ih ⟨w, hm⟩ with ⟨w2, hw2⟩
        refine ⟨w2, ?_⟩
        simp only [dictInsert, if_neg hk]
        exact List.mem_cons_of_mem _ hw2

lemma lowerDict_key_present {c : String} :
    ∀ (cs : List String) (d0 : List (String × String)),
      (c ∈ cs ∨ ∃ w, (strLower c, w) ∈ d0) →
      ∃ w, (strLower c, w) ∈ cs.foldl (fun d x => dictInsert (strLower x) x d) d0 := by
  intro cs
  induction cs with
  | nil =>
    intro d0 h
    rcases h with h | h
    · exact absurd h (List.not_mem_nil c)
    · exact h
  | cons x xs ih =>
    intro d0 h
    rcases h with h | h
    · rcases List.mem_cons.mp h with rfl | hm
      · exact ih _ (Or.inr (dictInsert_key_self _ _ _))
      · exact ih _ (Or.inl hm)
    · exact ih _ (Or.inr (dictInsert_key_stays h))

lemma lowerDict_key_of_mem {c : String} {cands : List String} (h : c ∈ cands) :
    ∃ w, (strLower c, w) ∈ lowerDict cands :=
  lowerDict_key_present cands [] (Or.inl h)

lemma firstHit_none_iff {prefs : List String} {d : List (String × String)} :
    firstHit prefs d = none ↔
      ∀ p ∈ prefs, ∀ kv ∈ d, strContains kv.1 p = false := by
  unfold firstHit
  rw [List.findSome?_eq_none_iff]
  constructor
  · intro h p hp kv hkv
    have h1 := h p hp
    rw [Option.map_eq_none'] at h1
    rw [List.find?_eq_none] at h1
    have := h1 kv hkv
    simpa using this
  · intro h p hp
    rw [Option.map_eq_none', List.find?_eq_none]
    intro kv hkv
    simp [h p hp kv hkv]

lemma firstHit_some_mem {prefs : List String} {d : List (String × String)} {c : String}
    (h : firstHit prefs d = some c) : ∃ kv ∈ d, kv.2 = c := by
  unfold firstHit at h
  rcases List.exists_of_findSome?_eq_some h with ⟨p, hp, hfp⟩
  rcases Option.map_eq_some'.mp hfp with ⟨kv, hfind, rfl⟩
  exact ⟨kv, List.mem_of_find?_eq_some hfind, rfl⟩

lemma pickMax_mem (h : String × ℚ) (tl : List (String × ℚ)) :
    pickMax h tl = h ∨ pickMax h tl ∈ tl := by
  induction tl generalizing h with
  | nil => exact Or.inl rfl
  | cons x xs ih =>
    have hstep : pickMax h (x :: xs) = pickMax (if h.2 < x.2 then x else h) xs := rfl
    rcases ih (if h.2 < x.2 then x else h) with h1 | h1
    · rw [hstep, h1]
      split
      · exact Or.inr (List.mem_cons_self _ _)
      · exact Or.inl rfl
    · rw [hstep]
      exact Or.inr (List.mem_cons_of_mem _ h1)

lemma pickMax_ge (h : String × ℚ) (tl : List (String × ℚ)) :
    ∀ x ∈ h :: tl, x.2 ≤ (pickMax h tl).2 := by
  induction tl generalizing h with
  | nil =>
    intro x hx
    have : x = h := by simpa using hx
    subst this
    exact le_refl _
  | cons y ys ih =>
    intro x hx
    have hstep : pickMax h (y :: ys) = pickMax (if h.2 < y.2 then y else h) ys := rfl
    have hh : h.2 ≤ (if h.2 < y.2 then y else h).2 := by
      split
      · exact le_of_lt (by assumption)
      · exact le_refl _
    have hy : y.2 ≤ (if h.2 < y.2 then y else h).2 := by
      split
      · exact le_refl _
      · exact le_of_not_lt (by assumption)
    have hhead := ih (if h.2 < y.2 then y else h) _ (List.mem_cons_self _ _)
    rcases List.mem_cons.mp hx with rfl | hx2
    · rw [hstep]; exact le_trans hh hhead
    · rcases List.mem_cons.mp hx2 with rfl | hx3
      · rw [hstep]; exact le_trans hy hhead
      · rw [hstep]; exact ih _ _ (List.mem_cons_of_mem _ hx3)

lemma candidatesOf_ne_nil {t : Table} (h : numColNames t ≠ []) :
    candidatesOf t ≠ [] := by
  unfold candidatesOf
  split
  · exact h
  · assumption

lemma pick_target_some_mem {t : Table} {c agg : String}
    (h : pick_target t = (some c, agg)) : c ∈ candidatesOf t := by
  unfold pick_target at h
  by_cases hn : numColNames t = []
  · rw [if_pos hn] at h
    exact absurd (congrArg Prod.fst h) (by simp)
  · rw [if_neg hn] at h
    rcases hs : firstHit prefs_sum (lowerDict (candidatesOf t)) with _ | c1
    · rw [hs] at h
      rcases hm : firstHit prefs_mean (lowerDict (candidatesOf t)) with _ | c2
      · rw [hm] at h
        rcases hc : candidatesOf t with _ | ⟨c0, cr⟩
        · rw [hc] at h
          exact absurd (congrArg Prod.fst h) (by simp)
        · rw [hc] at h
          have h1 : (pickMax (c0, colVar t c0) (cr.map fun x => (x, colVar t x))).1 = c := by
            have := congrArg Prod.fst h
            simpa using this
          rcases pickMax_mem (c0, colVar t c0) (cr.map fun x => (x, colVar t x)) with he | hmem
          · rw [← h1, he]
            exact List.mem_cons_self _ _
          · rcases List.mem_map.mp hmem with ⟨x, hx, hxe⟩
            rw [← h1, ← hxe]
            exact List.mem_cons_of_mem _ hx
      · rw [hm] at h
        have h2 : c2 = c := by
          have := congrArg Prod.fst h
          simpa using this
        rcases firstHit_some_mem hm with ⟨kv, hkv, hv⟩
        rcases mem_lowerDict hkv with ⟨x, hx, he⟩
        have : kv.2 = x := by rw [he]
        rw [h2] at hv
        rw [← hv, this]
        exact hx
    · rw [hs] at h
      have h2 : c1 = c := by
        have := congrArg Prod.fst h
        simpa using this
      rcases firstHit_some_mem hs with ⟨kv, hkv, hv⟩
      rcases mem_lowerDict hkv with ⟨x, hx, he⟩
      have : kv.2 = x := by rw [he]
      rw [h2] at hv
      rw [← hv, this]
      exact hx


/-- C2 (amended): an ID-like column (distinct-value share ≥ 0.98) can be
chosen as forecast target only when the ID-like / min-6-non-null filter
leaves no candidate at all, in which case `pick_target` falls back to all
numeric columns — not only when it is the single numeric column. -/
theorem idlike_target_only_on_fallback (t : Table) (c agg : String)
    (h : pick_target t = (some c, agg)) (hid : is_idlike t c = true) :
    filteredCands t = [] := by
  by_contra hne
  have hc := pick_target_some_mem h
  have hcand : candidatesOf t = filteredCands t := by
    unfold candidatesOf
    exact if_neg hne
  rw [hcand] at hc
  have hp := List.of_mem_filter hc
  rw [hid] at hp
  simp at hp

theorem idlike_target_only_on_fallback_witness :
    is_idlike tblC2 "id2" = true ∧ filteredCands tblC2 = [] :=
  ⟨by decide, idlike_target_only_on_fallback tblC2 "id2" "sum" (by decide) (by decide)⟩

/-- C1 (amended): target selection scans the sum keyword list in its fixed
order and, per keyword, the candidates in dict order — the first such hit
wins with aggregation `sum` (part 1); the mean list is consulted only when
no candidate's lowered name contains any sum keyword (part 2); when neither
list matches any candidate, a maximum-variance candidate is returned with
aggregation `sum` (part 3). -/
theorem pick_target_keyword_priority :
    (∀ t c, numColNames t ≠ [] →
       firstHit prefs_sum (lowerDict (candidatesOf t)) = some c →
       pick_target t = (some c, "sum")) ∧
    (∀ t c agg, pick_target t = (some c, agg) → agg = "mean" →
       ∀ cand ∈ candidatesOf t, ∀ kw ∈ prefs_sum,
         strContains (strLower cand) kw = false) ∧
    (∀ t c agg, numColNames t ≠ [] → pick_target t = (some c, agg) →
       (∀ cand ∈ candidatesOf t, ∀ kw ∈ prefs_sum ++ prefs_mean,
          strContains (strLower cand) kw = false) →
       agg = "sum" ∧ c ∈ candidatesOf t ∧
         ∀ c' ∈ candidatesOf t, colVar t c' ≤ colVar t c) := by
  refine ⟨?_, ?_, ?_⟩
  · intro t c hn hhit
    unfold pick_target
    rw [if_neg hn, hhit]
  · intro t c agg h hagg cand hcand kw hkw
    subst hagg
    unfold pick_target at h
    by_cases hn : numColNames t = []
    · rw [if_pos hn] at h
      exact absurd (congrArg Prod.snd h) (by simp)
    · rw [if_neg hn] at h
      rcases hs : firstHit prefs_sum (lowerDict (candidatesOf t)) with _ | c1
      · -- sum scan found nothing: that is exactly the conclusion
        rcases lowerDict_key_of_mem hcand with ⟨w, hw⟩
        exact (firstHit_none_iff.mp hs) kw hkw _ hw
      · rw [hs] at h
        exact absurd (congrArg Prod.snd h) (by simp)
  · intro t c agg hn h hnomatch
    have hnone : ∀ prefs : List String, (∀ kw ∈ prefs, ∀ cand ∈ candidatesOf t,
        strContains (strLower cand) kw = false) →
        firstHit prefs (lowerDict (candidatesOf t)) = none := by
      intro prefs hpref
      rw [firstHit_none_iff]
      intro p hp kv hkv
      rcases mem_lowerDict hkv with ⟨x, hx, he⟩
      have : kv.1 = strLower x := by rw [he]
      rw [this]
      exact hpref p hp x hx
    have hsum : firstHit prefs_sum (lowerDict (candidatesOf t)) = none := by
      refine hnone _ ?_
      intro kw hkw cand hcand
      exact hnomatch cand hcand kw (List.mem_append_left _ hkw)
    have hmean : firstHit prefs_mean (lowerDict (candidatesOf t)) = none := by
      refine hnone _ ?_
      intro kw hkw cand hcand
      exact hnomatch cand hcand kw (List.mem_append_right _ hkw)
    unfold pick_target at h
    rw [if_neg hn, hsum, hmean] at h
    rcases hc : candidatesOf t with _ | ⟨c0, cr⟩
    · exact absurd hc (candidatesOf_ne_nil hn)
    · rw [hc] at h
      have hagg : agg = "sum" := by
        have := congrArg Prod.snd h
        simpa using this.symm
      have h1 : (pickMax (c0, colVar t c0) (cr.map fun x => (x, colVar t x))).1 = c := by
        have := congrArg Prod.fst h
        simpa using this
      have hpair : pickMax (c0, colVar t c0) (cr.map fun x => (x, colVar t x)) =
          (c, colVar t c) := by
        rcases pickMax_mem (c0, colVar t c0) (cr.map fun x => (x, colVar t x)) with he | hmem
        · rw [he] at h1 ⊢
          rw [← h1]
        · rcases List.mem_map.mp hmem with ⟨x, hx, hxe⟩
          rw [← hxe] at h1 ⊢
          simp only at h1
          rw [h1]
      refine ⟨hagg, ?_, ?_⟩
      · rcases pickMax_mem (c0, colVar t c0) (cr.map fun x => (x, colVar t x)) with he | hmem
        · rw [he] at hpair
          have : c0 = c := congrArg Prod.fst hpair
          rw [← this]
          exact List.mem_cons_self _ _
        · rcases List.mem_map.mp hmem with ⟨x, hx, hxe⟩
          have : x = c := by
            have := congrArg Prod.fst (hxe.trans hpair)
            simpa using this
          rw [← this]
          exact List.mem_cons_of_mem _ hx
      · intro c' hc'
        have hmem : (c', colVar t c') ∈
            (c0, colVar t c0) :: cr.map fun x => (x, colVar t x) := by
          rcases List.mem_cons.mp hc' with rfl | hm
          · exact List.mem_cons_self _ _
          · exact List.mem_cons_of_mem _ (List.mem_map.mpr ⟨c', hm, rfl⟩)
        have := pickMax_ge (c0, colVar t c0) (cr.map fun x => (x, colVar t x))
          _ hmem
        rw [hpair] at this
        exact this

theorem pick_target_keyword_priority_witness :
    pick_target tblC1 = (some "Sales", "sum") :=
  pick_target_keyword_priority.1 tblC1 "Sales" (by decide) (by decide)


lemma pairedRows_eq_nil_iff (t : Table) (xc yc : String) :
    pairedRows t xc yc = [] ↔
      ∀ p ∈ List.zip (numValsOf t xc) (numValsOf t yc),
        ¬(p.1.isSome = true ∧ p.2.isSome = true) := by
  unfold pairedRows
  rw [List.filterMap_eq_nil_iff]
  constructor
  · intro h p hp
    rcases p with ⟨a, b⟩
    have := h _ hp
    cases a <;> cases b <;> simp_all
  · intro h p hp
    rcases p with ⟨a, b⟩
    have := h _ hp
    cases a <;> cases b <;> simp_all

/-- C10: when a heatmap is computed (≥ 2 numeric columns), the scatter
chart is present if and only if the selected maximal-|correlation| column
pair has at least one jointly non-null row in the chart sample. -/
theorem scatter_iff_joint_rows (lib : ExtLib) (rng : ℕ) (t : Table)
    (h2 : 2 ≤ (numColNames t).length) :
    (chart_data lib rng t).scatter ≠ none ↔
      ∃ p ∈ List.zip
          (numValsOf (chartSample lib t) (scatterPairOf lib (chartSample lib t)).1)
          (numValsOf (chartSample lib t) (scatterPairOf lib (chartSample lib t)).2),
        p.1.isSome = true ∧ p.2.isSome = true := by
  have hs : (chart_data lib rng t).scatter =
      (if ((pairedRows (chartSample lib t) (scatterPairOf lib (chartSample lib t)).1
            (scatterPairOf lib (chartSample lib t)).2).take 500).isEmpty then none
       else some
        { xCol := (scatterPairOf lib (chartSample lib t)).1
          yCol := (scatterPairOf lib (chartSample lib t)).2
          x := ((pairedRows (chartSample lib t) (scatterPairOf lib (chartSample lib t)).1
            (scatterPairOf lib (chartSample lib t)).2).take 500).map (·.1)
          y := ((pairedRows (chartSample lib t) (scatterPairOf lib (chartSample lib t)).1
            (scatterPairOf lib (chartSample lib t)).2).take 500).map (·.2) }) := by
    simp only [chart_data, if_pos h2]
  rw [hs]
  by_cases he : ((pairedRows (chartSample lib t) (scatterPairOf lib (chartSample lib t)).1
      (scatterPairOf lib (chartSample lib t)).2).take 500).isEmpty
  · rw [if_pos he]
    simp only [ne_eq, not_true_eq_false, false_iff]
    rw [List.isEmpty_iff] at he
    have hnil : pairedRows (chartSample lib t) (scatterPairOf lib (chartSample lib t)).1
        (scatterPairOf lib (chartSample lib t)).2 = [] := by
      rcases (List.take_eq_nil_iff).mp he with h | h
      · exact absurd h (by norm_num)
      · exact h
    intro hex
    rcases hex with ⟨p, hp, hsome⟩
    exact ((pairedRows_eq_nil_iff _ _ _).mp hnil p hp) hsome
  · rw [if_neg he]
    simp only [ne_eq, reduceCtorEq, not_false_eq_true, true_iff]
    rw [List.isEmpty_iff] at he
    have hnil : pairedRows (chartSample lib t) (scatterPairOf lib (chartSample lib t)).1
        (scatterPairOf lib (chartSample lib t)).2 ≠ [] := by
      intro hcon
      exact he (by rw [hcon]; simp)
    by_contra hnex
    push_neg at hnex
    exact hnil ((pairedRows_eq_nil_iff _ _ _).mpr
      (fun p hp hsome => (hnex p hp hsome.1) hsome.2))

theorem scatter_iff_joint_rows_witness :
    2 ≤ (numColNames tblC10).length ∧ (chart_data libW 0 tblC10).scatter = none := by
  refine ⟨by decide, ?_⟩
  have h := scatter_iff_joint_rows libW 0 tblC10 (by decide)
  have hno : ¬ ∃ p ∈ List.zip
      (numValsOf (chartSample libW tblC10) (scatterPairOf libW (chartSample libW tblC10)).1)
      (numValsOf (chartSample libW tblC10) (scatterPairOf libW (chartSample libW tblC10)).2),
      p.1.isSome = true ∧ p.2.isSome = true := by decide
  exact not_ne_iff.mp (fun hne => hno (h.mp hne))


lemma cellStrList_length (s : ColVals) : (cellStrList s).length = colLen s := by
  cases s <;> simp [cellStrList, colLen]

lemma tpsAttempt_length (lib : ExtLib) (s : ColVals) (b : Bool) :
    (tpsAttempt lib s b).length = colLen s := by
  unfold tpsAttempt
  rw [List.length_map, cellStrList_length]

lemma countP_isSome_le {α : Type} (g : Option α → String) (f : String → Option ℤ)
    (hg : f (g none) = none) (vs : List (Option α)) :
    ((vs.map g).map f).countP (·.isSome) ≤ vs.countP (·.isSome) := by
  induction vs with
  | nil => simp
  | cons v tl ih =>
    cases v with
    | none =>
      simp only [List.map_cons, List.countP_cons, hg]
      simpa using ih
    | some a =>
      simp only [List.map_cons, List.countP_cons]
      have h1 : (if (f (g (some a))).isSome = true then 1 else 0) ≤ 1 := by
        split <;> omega
      have h2 : (if (some a).isSome = true then 1 else 0) = 1 := by simp
      omega

lemma countP_isSome_eq_sub {α : Type} (vs : List (Option α)) :
    vs.countP (·.isSome) = vs.length - vs.countP (·.isNone) := by
  induction vs with
  | nil => simp
  | cons v tl ih =>
    have hle : tl.countP (fun x => x.isNone) ≤ tl.length := List.countP_le_length _
    cases v <;> simp [List.countP_cons, ih] <;> omega

/-- A parser sending the stringified nulls (`"nan"`, `"NaT"`) to NaT parses
at most the non-null cells. -/
lemma tpsAttempt_countP_le (lib : ExtLib) (s : ColVals) (b : Bool)
    (hnan : lib.toDT b "nan" = none) (hnat : lib.toDT b "NaT" = none) :
    (tpsAttempt lib s b).countP (·.isSome) ≤ colLen s - countNullCol s := by
  unfold tpsAttempt
  cases s with
  | num vs =>
    rw [show colLen (ColVals.num vs) - countNullCol (ColVals.num vs) =
        vs.countP (·.isSome) from (countP_isSome_eq_sub vs).symm]
    exact countP_isSome_le _ _ hnan vs
  | text vs =>
    rw [show colLen (ColVals.text vs) - countNullCol (ColVals.text vs) =
        vs.countP (·.isSome) from (countP_isSome_eq_sub vs).symm]
    exact countP_isSome_le _ _ hnan vs
  | bl vs =>
    rw [show colLen (ColVals.bl vs) - countNullCol (ColVals.bl vs) =
        vs.countP (·.isSome) from (countP_isSome_eq_sub vs).symm]
    exact countP_isSome_le _ _ hnan vs
  | dt vs =>
    rw [show colLen (ColVals.dt vs) - countNullCol (ColVals.dt vs) =
        vs.countP (·.isSome) from (countP_isSome_eq_sub vs).symm]
    exact countP_isSome_le _ _ hnat vs

lemma tpsAccept_iff (lib : ExtLib) (s : ColVals) (b : Bool) :
    tpsAccept (tpsAttempt lib s b) = true ↔
      (2 * colLen s ≤ 5 * (tpsAttempt lib s b).countP (·.isSome) ∧
        6 ≤ ((tpsAttempt lib s b).filterMap id).dedup.length) := by
  unfold tpsAccept
  rw [Bool.and_eq_true, decide_eq_true_iff, decide_eq_true_iff,
    tpsAttempt_length]
  rcases Nat.eq_zero_or_pos (colLen s) with h0 | hpos
  · constructor
    · intro ⟨hrate, _⟩
      exfalso
      have hc0 : (tpsAttempt lib s b).countP (fun x => x.isSome) = 0 := by
        have h := List.countP_le_length (fun (x : Option ℤ) => x.isSome)
          (l := tpsAttempt lib s b)
        rw [tpsAttempt_length, h0] at h
        omega
      rw [h0, hc0] at hrate
      norm_num at hrate
    · intro ⟨_, hdist⟩
      exfalso
      have hlen : tpsAttempt lib s b = [] := by
        have h := tpsAttempt_length lib s b
        rw [h0] at h
        exact List.length_eq_zero.mp h
      rw [hlen] at hdist
      simp at hdist
  · have hcast : (0 : ℚ) < (colLen s : ℚ) := by exact_mod_cast hpos
    constructor
    · intro ⟨hrate, hdist⟩
      refine ⟨?_, hdist⟩
      rw [div_le_div_iff (by norm_num) hcast] at hrate
      have h2 : (2 * colLen s : ℚ) ≤
          5 * ((tpsAttempt lib s b).countP (fun x => x.isSome) : ℚ) := by linarith
      exact_mod_cast h2
    · intro ⟨hrate, hdist⟩
      refine ⟨?_, hdist⟩
      rw [div_le_div_iff (by norm_num) hcast]
      have h2 : ((2 * colLen s : ℕ) : ℚ) ≤
          ((5 * (tpsAttempt lib s b).countP (fun x => x.isSome) : ℕ) : ℚ) := by
        exact_mod_cast hrate
      push_cast at h2
      linarith

/-- C3 (amended): a parse attempt is accepted iff, for one of the two
locale conventions, the parsed count is ≥ 40 % of the column's TOTAL length
(nulls stringify to "nan"/"NaT" and count as failures) and ≥ 6 distinct
timestamps result (part 1); consequently a column whose non-null share is
below 40 % is rejected no matter how well its non-null values parse
(part 2). -/
theorem try_parse_series_rate :
    (∀ (lib : ExtLib) (s : ColVals),
      (try_parse_series lib s).isSome = true ↔
        ∃ b : Bool, 2 * colLen s ≤ 5 * (tpsAttempt lib s b).countP (·.isSome) ∧
          6 ≤ ((tpsAttempt lib s b).filterMap id).dedup.length) ∧
    (∀ (lib : ExtLib) (s : ColVals),
      (∀ b : Bool, lib.toDT b "nan" = none ∧ lib.toDT b "NaT" = none) →
      5 * (colLen s - countNullCol s) < 2 * colLen s →
      try_parse_series lib s = none) := by
  constructor
  · intro lib s
    unfold try_parse_series
    by_cases h0 : tpsAccept (tpsAttempt lib s false) = true
    · rw [if_pos h0]
      simp only [Option.isSome_some, true_iff]
      exact ⟨false, (tpsAccept_iff lib s false).mp h0⟩
    · rw [if_neg h0]
      by_cases h1 : tpsAccept (tpsAttempt lib s true) = true
      · rw [if_pos h1]
        simp only [Option.isSome_some, true_iff]
        exact ⟨true, (tpsAccept_iff lib s true).mp h1⟩
      · rw [if_neg h1]
        simp only [Option.isSome_none, Bool.false_eq_true, false_iff]
        rintro ⟨b, hb⟩
        cases b
        · exact h0 ((tpsAccept_iff lib s false).mpr hb)
        · exact h1 ((tpsAccept_iff lib s true).mpr hb)
  · intro lib s hnone hfrac
    have hrej : ∀ b : Bool, tpsAccept (tpsAttempt lib s b) = false := by
      intro b
      rw [Bool.eq_false_iff]
      intro hacc
      have h1 := ((tpsAccept_iff lib s b).mp hacc).1
      have h2 := tpsAttempt_countP_le lib s b (hnone b).1 (hnone b).2
      omega
    unfold try_parse_series
    rw [if_neg (by rw [hrej false]; exact Bool.false_ne_true), 
        if_neg (by rw [hrej true]; exact Bool.false_ne_true)]

theorem try_parse_series_rate_witness :
    try_parse_series libToy colC3 = none ∧
    (try_parse_series libToy colC3ok).isSome = true := by
  constructor
  · exact try_parse_series_rate.2 libToy colC3 (by decide) (by decide)
  · exact (try_parse_series_rate.1 libToy colC3ok).mpr ⟨false, by decide, by decide⟩


/-- C4 (amended): in auto-frequency mode, when the post-resample bucket
counts (which, under sum aggregation, include zero-filled empty buckets)
fall below every gate (D ≥ 10, W ≥ 6, M ≥ 4) the engine returns no
forecast with the last recorded reason
`insufficient_points_m=<n>` (part 1); when the Day count fails its gate but
the Week count passes, the engine records the Day insufficiency and fits at
weekly frequency (part 2). -/
theorem freq_fallback :
    (∀ (lstsqF : List (List ℚ) → List ℚ → Except String (List ℚ))
       (rows : List (Option ℤ × Option ℚ)) (dc tg agg : String) (hor : Option ℕ),
      cleanRows rows ≠ [] →
      (resampleOk "D" agg (sortRows (cleanRows rows))).length < 10 →
      (resampleOk "W" agg (sortRows (cleanRows rows))).length < 6 →
      (resampleOk "M" agg (sortRows (cleanRows rows))).length < 4 →
      simple_forecast lstsqF rows dc tg agg "auto" hor =
        (none, "insufficient_points_m=" ++
          toString (resampleOk "M" agg (sortRows (cleanRows rows))).length)) ∧
    (∀ (lstsqF : List (List ℚ) → List ℚ → Except String (List ℚ))
       (rows : List (Option ℤ × Option ℚ)) (dc tg agg : String) (hor : Option ℕ)
       (beta : List ℚ),
      cleanRows rows ≠ [] →
      (resampleOk "D" agg (sortRows (cleanRows rows))).length < 10 →
      6 ≤ (resampleOk "W" agg (sortRows (cleanRows rows))).length →
      lstsqF (buildX "W" (resampleOk "W" agg (sortRows (cleanRows rows))))
        ((resampleOk "W" agg (sortRows (cleanRows rows))).map (·.2)) = .ok beta →
      simple_forecast lstsqF rows dc tg agg "auto" hor =
        (some (fitResult "W" agg hor tg dc
          (resampleOk "W" agg (sortRows (cleanRows rows))) beta), "")) := by
  constructor
  · intro lstsqF rows dc tg agg hor hne hd hw hm
    unfold simple_forecast sfCore
    rw [if_neg (by simpa [List.isEmpty_iff] using hne)]
    rw [if_pos rfl]
    rw [sfLoop, if_pos (by decide : validFreq "D" = true),
      if_pos (by simpa [minsOf] using hd)]
    rw [sfLoop, if_pos (by decide : validFreq "W" = true),
      if_pos (by simpa [minsOf] using hw)]
    rw [sfLoop, if_pos (by decide : validFreq "M" = true),
      if_pos (by simpa [minsOf] using hm)]
    rw [sfLoop]
    rfl
  · intro lstsqF rows dc tg agg hor beta hne hd hw hsolve
    unfold simple_forecast sfCore
    rw [if_neg (by simpa [List.isEmpty_iff] using hne)]
    rw [if_pos rfl]
    rw [sfLoop, if_pos (by decide : validFreq "D" = true),
      if_pos (by simpa [minsOf] using hd)]
    rw [sfLoop, if_pos (by decide : validFreq "W" = true),
      if_neg (by rw [show minsOf "W" = 6 from rfl]; omega)]
    rw [hsolve]


theorem freq_fallback_witness :
    simple_forecast lstsq0 rowsC4c "d" "t" "sum" "auto" none =
      (none, "insufficient_points_m=1") ∧
    simple_forecast lstsq0 rowsC4b "d" "t" "mean" "auto" none =
      (some (fitResult "W" "mean" none "t" "d"
        (resampleOk "W" "mean" (sortRows (cleanRows rowsC4b))) []), "") := by
  constructor
  · have h := freq_fallback.1 lstsq0 rowsC4c "d" "t" "sum" none
      (by decide) (by decide) (by decide) (by decide)
    rw [h]
    decide
  · exact freq_fallback.2 lstsq0 rowsC4b "d" "t" "mean" none []
      (by decide) (by decide) (by decide) rfl


lemma sfLoop_ok_some (lstsqF : List (List ℚ) → List ℚ → Except String (List ℚ))
    (tg dc agg : String) (hor : Option ℕ) (s : List (ℤ × ℚ)) :
    ∀ (fs : List String) (r0 : String) (r : ForecastResult) (reason : String),
      sfLoop lstsqF tg dc agg hor s fs r0 = .ok (some r, reason) →
      ∃ f beta, r = fitResult f agg hor tg dc (resampleOk f agg s) beta := by
  intro fs
  induction fs with
  | nil =>
    intro r0 r reason h
    simp only [sfLoop] at h
    exact absurd h (by simp)
  | cons f rest ih =>
    intro r0 r reason h
    simp only [sfLoop] at h
    by_cases hv : validFreq f = true
    · rw [if_pos hv] at h
      by_cases hlen : (resampleOk f agg s).length < minsOf f
      · rw [if_pos hlen] at h
        exact ih _ r reason h
      · rw [if_neg hlen] at h
        rcases hsol : lstsqF (buildX f (resampleOk f agg s))
            ((resampleOk f agg s).map (·.2)) with e | beta
        · rw [hsol] at h
          exact absurd h (by simp)
        · rw [hsol] at h
          have h2 : (some (fitResult f agg hor tg dc (resampleOk f agg s) beta),
              ("" : String)) = (some r, reason) := by
            simpa using h
          have h3 : some (fitResult f agg hor tg dc (resampleOk f agg s) beta) =
              some r := congrArg Prod.fst h2
          exact ⟨f, beta, (Option.some_injective _ h3).symm⟩
    · rw [if_neg hv] at h
      exact absurd h (by simp)

/-- C5: for every successfully fitted frequency with `n` aggregated
buckets, the holdout is everything from index `max(5, ⌊0.8·n⌋)` to the end
— the backtest series is exactly that suffix and has length
`n - max(5, ⌊0.8·n⌋)` — and the horizon defaults per frequency
(witness: the 30-day daily table fits at D with horizon 14 and backtest
length 30 - 24 = 6). -/
theorem backtest_split (lstsqF : List (List ℚ) → List ℚ → Except String (List ℚ))
    (rows : List (Option ℤ × Option ℚ)) (dc tg agg freqArg : String)
    (hor : Option ℕ) (r : ForecastResult) (reason : String)
    (h : simple_forecast lstsqF rows dc tg agg freqArg hor = (some r, reason)) :
    r.backtest_ytrue =
      ((resampleOk r.freq agg (sortRows (cleanRows rows))).map (·.2)).drop
        (max 5 (4 * (resampleOk r.freq agg (sortRows (cleanRows rows))).length / 5)) ∧
    r.backtest_x.length =
      (resampleOk r.freq agg (sortRows (cleanRows rows))).length -
        max 5 (4 * (resampleOk r.freq agg (sortRows (cleanRows rows))).length / 5) ∧
    r.backtest_ytrue.length =
      (resampleOk r.freq agg (sortRows (cleanRows rows))).length -
        max 5 (4 * (resampleOk r.freq agg (sortRows (cleanRows rows))).length / 5) ∧
    r.horizon = (match hor with
      | some k => if k = 0 then defaultH r.freq else k
      | none => defaultH r.freq) := by
  unfold simple_forecast at h
  rcases hc : sfCore lstsqF rows dc tg agg freqArg hor with e | p
  · rw [hc] at h
    exact absurd (congrArg Prod.fst h) (by simp)
  · rw [hc] at h
    subst h
    unfold sfCore at hc
    by_cases hne : (cleanRows rows).isEmpty
    · rw [if_pos hne] at hc
      exact absurd hc (by simp)
    · rw [if_neg hne] at hc
      rcases sfLoop_ok_some lstsqF tg dc agg hor (sortRows (cleanRows rows))
        _ _ r reason hc with ⟨f, beta, hr⟩
      subst hr
      have hfreq : (fitResult f agg hor tg dc
          (resampleOk f agg (sortRows (cleanRows rows))) beta).freq = f := rfl
      rw [hfreq]
      refine ⟨rfl, ?_, ?_, ?_⟩
      · show (((resampleOk f agg (sortRows (cleanRows rows))).map (·.1)).drop
            (max 5 (4 * (resampleOk f agg (sortRows (cleanRows rows))).length / 5))).length = _
        rw [List.length_drop, List.length_map]
      · show (((resampleOk f agg (sortRows (cleanRows rows))).map (·.2)).drop
            (max 5 (4 * (resampleOk f agg (sortRows (cleanRows rows))).length / 5))).length = _
        rw [List.length_drop, List.length_map]
      · cases hor <;> rfl

theorem backtest_split_witness :
    simple_forecast lstsq0 rowsC5 "date" "sales" "sum" "auto" none = (some rC5, "") ∧
    rC5.freq = "D" ∧ rC5.horizon = 14 ∧
    rC5.backtest_x.length = 6 ∧ rC5.backtest_ytrue.length = 6 := by
  have hsf : simple_forecast lstsq0 rowsC5 "date" "sales" "sum" "auto" none =
      (some rC5, "") := rfl
  have h := backtest_split lstsq0 rowsC5 "date" "sales" "sum" "auto" none rC5 "" hsf
  refine ⟨hsf, rfl, ?_, ?_, ?_⟩
  · rw [h.2.2.2]
    rfl
  · rw [h.2.1]
    decide
  · rw [h.2.2.1]
    decide


/-- In exact arithmetic, the strict pandas test `abs(skew) > 1` is the
rational comparison `skewGtOne`. -/
lemma skew_bridge (xs : List ℚ) (h3 : 3 ≤ xs.length) (hm2 : 0 < centM 2 xs) :
    skewGtOne xs = true ↔ 1 < |sampleSkew xs| := by
  unfold skewGtOne sampleSkew
  rw [decide_eq_true_iff]
  have hnR : (3 : ℝ) ≤ (xs.length : ℝ) := by exact_mod_cast h3
  have hm2R : (0 : ℝ) < ((centM 2 xs : ℚ) : ℝ) := by exact_mod_cast hm2
  set n : ℝ := (xs.length : ℝ) with hn
  set m2 : ℝ := ((centM 2 xs : ℚ) : ℝ) with hm2d
  set m3 : ℝ := ((centM 3 xs : ℚ) : ℝ) with hm3d
  have hA : (0 : ℝ) ≤ Real.sqrt (n * (n - 1)) := Real.sqrt_nonneg _
  have hS : (0 : ℝ) < Real.sqrt (m2 ^ 3) := Real.sqrt_pos.mpr (by positivity)
  have hn2 : (0 : ℝ) < n - 2 := by linarith
  have hD : (0 : ℝ) < (n - 2) * Real.sqrt (m2 ^ 3) := mul_pos hn2 hS
  rw [abs_div, abs_of_pos hD, lt_div_iff hD, one_mul, abs_mul, abs_of_nonneg hA]
  have e1 : ((n - 2) * Real.sqrt (m2 ^ 3)) ^ 2 = (n - 2) ^ 2 * m2 ^ 3 := by
    rw [mul_pow, Real.sq_sqrt (by positivity)]
  have e2 : (Real.sqrt (n * (n - 1)) * |m3|) ^ 2 = n * (n - 1) * m3 ^ 2 := by
    rw [mul_pow, Real.sq_sqrt (by nlinarith : (0 : ℝ) ≤ n * (n - 1)), sq_abs]
  constructor
  · intro hq
    have hqR : (n - 2) ^ 2 * m2 ^ 3 < n * (n - 1) * m3 ^ 2 := by
      have : ((xs.length : ℚ) - 2) ^ 2 * (centM 2 xs) ^ 3 <
          (xs.length : ℚ) * ((xs.length : ℚ) - 1) * (centM 3 xs) ^ 2 := hq
      rw [hn, hm2d, hm3d]
      exact_mod_cast this
    have hsq : ((n - 2) * Real.sqrt (m2 ^ 3)) ^ 2 <
        (Real.sqrt (n * (n - 1)) * |m3|) ^ 2 := by
      rw [e1, e2]; linarith
    exact lt_of_pow_lt_pow_left 2 (by positivity) hsq
  · intro hlt
    have hsq : ((n - 2) * Real.sqrt (m2 ^ 3)) ^ 2 <
        (Real.sqrt (n * (n - 1)) * |m3|) ^ 2 :=
      pow_lt_pow_left hlt hD.le (by norm_num)
    rw [e1, e2] at hsq
    have : ((xs.length : ℚ) - 2) ^ 2 * (centM 2 xs) ^ 3 <
        (xs.length : ℚ) * ((xs.length : ℚ) - 1) * (centM 3 xs) ^ 2 := by
      rw [hn, hm2d, hm3d] at hsq
      exact_mod_cast hsq
    exact this

lemma key_eq_of_nodup {α β : Type} {l : List (α × β)}
    (h : (l.map Prod.fst).Nodup) {p q : α × β}
    (hp : p ∈ l) (hq : q ∈ l) (he : p.1 = q.1) : p = q := by
  induction l with
  | nil => cases hp
  | cons x xs ih =>
    obtain ⟨hx, htl⟩ := List.nodup_cons.mp h
    rcases List.mem_cons.mp hp with rfl | hp2
    · rcases List.mem_cons.mp hq with rfl | hq2
      · rfl
      · exfalso
        apply hx
        rw [he]
        exact List.mem_map.mpr ⟨q, hq2, rfl⟩
    · rcases List.mem_cons.mp hq with rfl | hq2
      · exfalso
        apply hx
        rw [← he]
        exact List.mem_map.mpr ⟨p, hp2, rfl⟩
      · exact ih htl hp2 hq2

lemma not_skewed_mem_missing {c : String} {b : Bool} {summary : SummaryS} :
    Finding.skewed c b ∉ insightsMissing summary := by
  intro h
  unfold insightsMissing at h
  split at h
  · simp at h
  · rcases List.mem_filterMap.mp h with ⟨kv, _, hkv⟩
    split at hkv <;> simp at hkv

lemma not_skewed_mem_corr {c : String} {b : Bool} {hm : Option HeatmapC} :
    Finding.skewed c b ∉ insightsCorr hm := by
  intro h
  unfold insightsCorr at h
  rcases hm with _ | hmv
  · simp at h
  · split at h
    · simp at h
    · split at h
      · simp at h
      · simp at h

lemma not_skewed_mem_bars {c : String} {b : Bool} {bars : List BarCountC} :
    Finding.skewed c b ∉ insightsBars bars := by
  intro h
  unfold insightsBars at h
  rcases List.mem_filterMap.mp h with ⟨bc, _, hbc⟩
  split at hbc <;> simp at hbc

lemma not_skewed_mem_forecast {c : String} {b : Bool} {fc : Option ForecastResult} :
    Finding.skewed c b ∉ insightsForecast fc := by
  intro h
  unfold insightsForecast at h
  rcases fc with _ | r <;> simp at h

lemma skewed_mem_insights_iff {t : Table} {summary : SummaryS} {ch : ChartBundle}
    {fc : Option ForecastResult} {c : String} {b : Bool} :
    Finding.skewed c b ∈ insights t summary ch fc ↔
      Finding.skewed c b ∈ insightsSkew t := by
  unfold insights
  split
  · rename_i he
    rw [List.isEmpty_iff] at he
    constructor
    · intro h
      simp at h
    · intro h
      exfalso
      have h4 : insightsSkew t = [] := by
        rcases List.append_eq_nil.mp he with ⟨h5, _⟩
        exact (List.append_eq_nil.mp h5).2
      rw [h4] at h
      cases h
  · simp only [List.mem_append]
    constructor
    · rintro ((((h | h) | h) | h) | h)
      · exact absurd h not_skewed_mem_missing
      · exact absurd h not_skewed_mem_corr
      · exact absurd h not_skewed_mem_bars
      · exact h
      · exact absurd h not_skewed_mem_forecast
    · intro h
      exact Or.inl (Or.inr h)

lemma skewed_mem_insightsSkew_iff {t : Table} {c : String} {vs : List (Option ℚ)}
    (hnd : ((numColsOf t).map Prod.fst).Nodup)
    (hmem : (c, vs) ∈ (numColsOf t).take 2) :
    (∃ b, Finding.skewed c b ∈ insightsSkew t) ↔
      (10 < (dropNone vs).length ∧ skewGtOne (dropNone vs) = true) := by
  have hnd2 : (((numColsOf t).take 2).map Prod.fst).Nodup := by
    rw [List.map_take]
    exact List.Nodup.sublist (List.take_sublist _ _) hnd
  unfold insightsSkew
  constructor
  · rintro ⟨b, hb⟩
    rcases List.mem_filterMap.mp hb with ⟨p, hp, hF⟩
    rcases p with ⟨c', vs'⟩
    by_cases hl : 10 < (dropNone vs').length
    · rw [if_pos hl] at hF
      by_cases hsk : skewGtOne (dropNone vs')
      · rw [if_pos hsk] at hF
        have hc : c' = c := by
          have := Option.some_injective _ hF
          exact (Finding.skewed.injEq _ _ _ _).mp this |>.1
        have hpe : ((c', vs') : String × List (Option ℚ)) = (c, vs) :=
          key_eq_of_nodup hnd2 hp hmem hc
        have hvs : vs' = vs := congrArg Prod.snd hpe
        rw [hvs] at hl hsk
        exact ⟨hl, hsk⟩
      · rw [if_neg hsk] at hF
        cases hF
    · rw [if_neg hl] at hF
      cases hF
  · rintro ⟨hl, hsk⟩
    refine ⟨decide (0 < centM 3 (dropNone vs)), ?_⟩
    refine List.mem_filterMap.mpr ⟨(c, vs), hmem, ?_⟩
    rw [if_pos hl, if_pos hsk]

/-- C7: for a column among the first two numeric columns with more than 10
non-null values (and positive variance, so the skewness is defined), the
skew insight is emitted iff the sample skewness exceeds 1 in absolute
value, strictly — skewness exactly 1.0 emits nothing, 1.01 does. -/
theorem skew_insight_iff (t : Table) (summary : SummaryS) (ch : ChartBundle)
    (fc : Option ForecastResult) (c : String) (vs : List (Option ℚ))
    (hnd : ((numColsOf t).map Prod.fst).Nodup)
    (hmem : (c, vs) ∈ (numColsOf t).take 2)
    (hlen : 10 < (dropNone vs).length)
    (hm2 : 0 < centM 2 (dropNone vs)) :
    (∃ b, Finding.skewed c b ∈ insights t summary ch fc) ↔
      1 < |sampleSkew (dropNone vs)| := by
  have h1 : (∃ b, Finding.skewed c b ∈ insights t summary ch fc) ↔
      (∃ b, Finding.skewed c b ∈ insightsSkew t) :=
    exists_congr (fun b => skewed_mem_insights_iff)
  rw [h1, skewed_mem_insightsSkew_iff hnd hmem,
    skew_bridge (dropNone vs) (by omega) hm2]
  simp [hlen]

theorem skew_insight_iff_witness :
    ∃ b, Finding.skewed "v" b ∈
      insights tblC7 (summarize tblC7) (chart_data libW 0 tblC7) none := by
  have h := skew_insight_iff tblC7 (summarize tblC7) (chart_data libW 0 tblC7) none
    "v" (xsC7.map some) (by decide) (by decide) (by decide) (by decide)
  refine h.mpr ?_
  rw [← skew_bridge (dropNone (xsC7.map some)) (by decide) (by decide)]
  decide

end AiEda
